import Mathlib

/-!
Verification development for the riichibot Riichi Mahjong rules engine.

The definitions below are a shallow embedding of the Python sources:
  src/tiles/tile.py, src/tiles/wall.py, src/game/hand.py, src/game/player.py,
  src/game/rules.py, src/game/scoring.py, src/game/engine.py.
Python classes become structures, mutating methods become functions returning
the updated value, `raise` becomes `Except String`, and `random.shuffle` is
modelled by taking the shuffled tile order as a parameter.  Python `list.sort`
is a stable sort; it is embedded as a stable insertion sort on the same key,
which produces the identical list.  Python `set(...)` /  dict iteration (used
only to enumerate distinct tiles) is embedded as first-occurrence
deduplication.  A handful of methods that the engine calls but that are absent
from the sources are modelled from the specification and are marked
`Modelled from the spec:` in their doc comments.
-/

/-- Tile suits, from src/tiles/tile.py (class Suit). -/
inductive Suit where
  | sou
  | pin
  | man
  | wind
  | dragon
deriving DecidableEq, Repr

/-- Wind values, from src/tiles/tile.py (class Wind). -/
inductive Wind where
  | east
  | south
  | west
  | north
deriving DecidableEq, Repr

/-- Dragon values, from src/tiles/tile.py (class Dragon). -/
inductive Dragon where
  | green
  | red
  | white
deriving DecidableEq, Repr

/-- String value of a suit (the Python enum value). -/
def Suit.str : Suit → String
  | .sou => "sou"
  | .pin => "pin"
  | .man => "man"
  | .wind => "wind"
  | .dragon => "dragon"

/-- String value of a wind (the Python enum value). -/
def Wind.str : Wind → String
  | .east => "east"
  | .south => "south"
  | .west => "west"
  | .north => "north"

/-- String value of a dragon (the Python enum value). -/
def Dragon.str : Dragon → String
  | .green => "green"
  | .red => "red"
  | .white => "white"

/-- Tile value object, from src/tiles/tile.py (frozen dataclass Tile).
Being a frozen dataclass with no custom eq, Python equality and hashing
compare the full field tuple (suit, value, wind, dragon, is_red); the derived
DecidableEq gives exactly that. -/
structure Tile where
  suit : Suit
  value : Option Nat := none
  wind : Option Wind := none
  dragon : Option Dragon := none
  is_red : Bool := false
deriving DecidableEq, Repr

/-- Check if tile is 1 or 9 (Tile.is_terminal). -/
def Tile.is_terminal (t : Tile) : Bool :=
  match t.value with
  | some v => v == 1 || v == 9
  | none => false

/-- Check if tile is wind or dragon (Tile.is_honor). -/
def Tile.is_honor (t : Tile) : Bool :=
  t.suit == Suit.wind || t.suit == Suit.dragon

/-- Check if tile is terminal (1/9) or honor (Tile.is_terminal_or_honor). -/
def Tile.is_terminal_or_honor (t : Tile) : Bool :=
  t.is_terminal || t.is_honor

/-- Get next tile for dora calculation (Tile.next_tile).  The source assumes a
well-formed tile (suited tiles carry a value, winds a wind, dragons a dragon);
`getD` supplies the default only on malformed inputs the source never builds. -/
def Tile.next_tile (t : Tile) : Tile :=
  match t.suit with
  | .sou | .pin | .man =>
    let v := t.value.getD 0
    { suit := t.suit, value := some (if v == 9 then 1 else v + 1) }
  | .wind =>
    let next : Wind :=
      match t.wind.getD Wind.east with
      | .east => .south
      | .south => .west
      | .west => .north
      | .north => .east
    { suit := Suit.wind, wind := some next }
  | .dragon =>
    let next : Dragon :=
      match t.dragon.getD Dragon.green with
      | .green => .red
      | .red => .white
      | .white => .green
    { suit := Suit.dragon, dragon := some next }

/-- Wire string of a tile (Tile.__str__): suited tiles as value, optional "r",
and suit string; winds and dragons as their names. -/
def Tile.str (t : Tile) : String :=
  match t.suit with
  | .sou | .pin | .man =>
    Nat.repr (t.value.getD 0) ++ (if t.is_red then "r" else "") ++ t.suit.str
  | .wind => (t.wind.getD Wind.east).str
  | .dragon => (t.dragon.getD Dragon.green).str

/-- Numeric stand-in for the Python sort key component `t.suit.value`, a
string.  Lexicographically "dragon" < "man" < "pin" < "sou" < "wind", which is
exactly the order below. -/
def Suit.sort_ord : Suit → Nat
  | .dragon => 0
  | .man => 1
  | .pin => 2
  | .sou => 3
  | .wind => 4

/-- Sort key used throughout the sources: `(t.suit.value, t.value or 0)`. -/
def Tile.sort_key (t : Tile) : Nat × Nat :=
  (t.suit.sort_ord, t.value.getD 0)

/-- Lexicographic comparison of sort keys, the order Python uses on the key
tuples. -/
def key_le (a b : Nat × Nat) : Bool :=
  a.1 < b.1 || (a.1 == b.1 && a.2 ≤ b.2)

/-- Insert a tile after all tiles with a key less than or equal to its own.
Together with a left fold this is a stable insertion sort. -/
def insert_by_key (x : Tile) : List Tile → List Tile
  | [] => [x]
  | y :: ys =>
    if key_le y.sort_key x.sort_key then y :: insert_by_key x ys else x :: y :: ys

/-- Stable sort by `Tile.sort_key`.  Python's `list.sort` is stable, and any
two stable sorts on the same key agree, so this reproduces the source lists. -/
def sort_tiles (l : List Tile) : List Tile :=
  l.foldl (fun acc x => insert_by_key x acc) []

/-- First-occurrence deduplication, matching the way the sources use
`set(tiles)` (only to enumerate the distinct tiles of a list). -/
def dedup_first (l : List Tile) : List Tile :=
  l.foldl (fun acc t => if acc.contains t then acc else acc ++ [t]) []

/-- Wall state, from src/tiles/wall.py (class Wall). -/
structure Wall where
  tiles : List Tile
  dead_wall : List Tile
  dora_indicators : List Tile
  use_red_fives : Bool
deriving DecidableEq, Repr

/-- Complete 136-tile set in construction order (Wall._build_wall): 4 copies
of each of 1-9 in sou, pin, man — the first 5 of each suit red when red fives
are enabled — then 4 of each wind, then 4 of each dragon. -/
def Wall.build_wall (use_red_fives : Bool) : List Tile :=
  let suited :=
    [Suit.sou, Suit.pin, Suit.man].foldl (fun acc suit =>
      (List.range' 1 9).foldl (fun acc2 v =>
        (List.range 4).foldl (fun acc3 _ =>
          let is_red := use_red_fives && v == 5 &&
            (acc3.filter (fun t => t.suit == suit && t.value == some 5)).length == 0
          acc3 ++ [{ suit := suit, value := some v, is_red := is_red }]) acc2) acc) []
  let with_winds :=
    [Wind.east, Wind.south, Wind.west, Wind.north].foldl (fun acc w =>
      acc ++ (List.range 4).map (fun _ => { suit := Suit.wind, wind := some w })) suited
  [Dragon.green, Dragon.red, Dragon.white].foldl (fun acc d =>
    acc ++ (List.range 4).map (fun _ => { suit := Suit.dragon, dragon := some d })) with_winds

/-- Wall after Wall.__init__ given the shuffled order of the full tile list
(random.shuffle is modelled by the parameter): the last 14 tiles become the
dead wall and dead_wall[4] the initial dora indicator (Wall._shuffle). -/
def Wall.fresh (shuffled : List Tile) (use_red_fives : Bool) : Wall :=
  let dead := shuffled.drop (shuffled.length - 14)
  { tiles := shuffled.take (shuffled.length - 14)
    dead_wall := dead
    dora_indicators := [dead.getD 4 { suit := Suit.sou, value := some 1 }]
    use_red_fives := use_red_fives }

/-- Draw tile from wall (Wall.draw_tile); raises ValueError when empty. -/
def Wall.draw_tile (w : Wall) : Except String (Tile × Wall) :=
  match w.tiles with
  | [] => .error ("Wall is empty")
  | t :: rest => .ok (t, { w with tiles := rest })

/-- Add new dora indicator when kan is declared (Wall.add_dora_indicator),
capped at 4 indicators.  The source indexes dead_wall[4 + count], in range in
every state the engine builds; `getD` covers only malformed walls. -/
def Wall.add_dora_indicator (w : Wall) : Wall :=
  if w.dora_indicators.length < 4 then
    let idx := 4 + w.dora_indicators.length
    { w with dora_indicators :=
        w.dora_indicators ++ [w.dead_wall.getD idx { suit := Suit.sou, value := some 1 }] }
  else w

/-- Get current dora tiles (Wall.get_dora_tiles). -/
def Wall.get_dora_tiles (w : Wall) : List Tile :=
  w.dora_indicators.map Tile.next_tile

/-- Get ura-dora tiles (Wall.get_ura_dora_tiles): dead_wall[9 + i] for each
indicator index i, mapped to its successor. -/
def Wall.get_ura_dora_tiles (w : Wall) : List Tile :=
  (List.range w.dora_indicators.length).map (fun i =>
    (w.dead_wall.getD (9 + i) { suit := Suit.sou, value := some 1 }).next_tile)

/-- Number of live wall tiles (Wall.tiles_remaining). -/
def Wall.tiles_remaining (w : Wall) : Nat :=
  w.tiles.length

/-- Meld record, from src/game/hand.py (dataclass Meld). -/
structure Meld where
  tiles : List Tile
  is_open : Bool := false
  called_from : Option Nat := none
deriving DecidableEq, Repr

/-- Meld type derived from tile count and content (Meld.meld_type). -/
def Meld.meld_type (m : Meld) : String :=
  if m.tiles.length == 2 then "pair"
  else if m.tiles.length == 3 then
    match m.tiles.head? with
    | some f => if m.tiles.all (fun t => t == f) then "triplet" else "sequence"
    | none => "unknown"
  else if m.tiles.length == 4 then "kan"
  else "unknown"

/-- Meld.is_sequence. -/
def Meld.is_sequence (m : Meld) : Bool := m.meld_type == "sequence"

/-- Meld.is_triplet. -/
def Meld.is_triplet (m : Meld) : Bool := m.meld_type == "triplet"

/-- Meld.is_kan. -/
def Meld.is_kan (m : Meld) : Bool := m.meld_type == "kan"

/-- Hand state, from src/game/hand.py (class Hand). -/
structure Hand where
  concealed_tiles : List Tile := []
  melds : List Meld := []
  discards : List Tile := []
  is_riichi : Bool := false
  riichi_turn : Option Nat := none
  ippatsu_eligible : Bool := false
  last_drawn_tile : Option Tile := none
  furiten_state : Bool := false
  temp_furiten : Bool := false
deriving DecidableEq, Repr

/-- Add tile to concealed hand (Hand.add_tile): append, record the draw,
clear temporary furiten, and re-sort. -/
def Hand.add_tile (h : Hand) (tile : Tile) : Hand :=
  { h with
    concealed_tiles := sort_tiles (h.concealed_tiles ++ [tile])
    last_drawn_tile := some tile
    temp_furiten := false }

/-- Remove tile from concealed hand (Hand.remove_tile): removes the first
occurrence when present and reports whether it did. -/
def Hand.remove_tile (h : Hand) (tile : Tile) : Bool × Hand :=
  if h.concealed_tiles.contains tile then
    (true, { h with concealed_tiles := h.concealed_tiles.erase tile })
  else (false, h)

/-- Discard a tile (Hand.discard_tile): if the removal succeeds, append to
discards, clear the drawn-tile marker, end ippatsu on a post-declaration
discard, and reset temporary furiten. -/
def Hand.discard_tile (h : Hand) (tile : Tile) (from_riichi_declaration : Bool) : Hand :=
  match h.remove_tile tile with
  | (true, h1) =>
    let h2 := { h1 with discards := h1.discards ++ [tile], last_drawn_tile := none }
    let h3 :=
      if h2.is_riichi && h2.ippatsu_eligible && !from_riichi_declaration then
        { h2 with ippatsu_eligible := false }
      else h2
    { h3 with temp_furiten := false }
  | (false, _) => h

/-- Add completed meld (Hand.add_meld). -/
def Hand.add_meld (h : Hand) (meld : Meld) : Hand :=
  { h with melds := h.melds ++ [meld] }

/-- Check if hand is closed, i.e. no open melds (Hand.is_closed). -/
def Hand.is_closed (h : Hand) : Bool :=
  h.melds.all (fun m => !m.is_open)

/-- All 34 tile kinds in enumeration order (Hand._get_all_possible_tiles). -/
def Hand.get_all_possible_tiles : List Tile :=
  ([Suit.sou, Suit.pin, Suit.man].foldl (fun acc suit =>
    acc ++ (List.range' 1 9).map (fun v => { suit := suit, value := some v })) [])
  ++ [Wind.east, Wind.south, Wind.west, Wind.north].map
      (fun w => { suit := Suit.wind, wind := some w })
  ++ [Dragon.green, Dragon.red, Dragon.white].map
      (fun d => { suit := Suit.dragon, dragon := some d })

/-- Check if tiles can form the given number of triplet/sequence melds
(Hand._can_form_melds).  The source recursion consumes one meld per call, so
the embedding recurses structurally on melds_needed. -/
def Hand.can_form_melds (tiles : List Tile) : Nat → Bool
  | 0 => tiles.length == 0
  | n + 1 =>
    if tiles.length != (n + 1) * 3 then false
    else
      let ts := sort_tiles tiles
      match ts.head? with
      | none => false
      | some first =>
        (if ts.count first ≥ 3 then
          Hand.can_form_melds (((ts.erase first).erase first).erase first) n
         else false)
        ||
        (match first.suit, first.value with
         | .sou, some v | .pin, some v | .man, some v =>
           if v ≤ 7 then
             let tile2 : Tile := { suit := first.suit, value := some (v + 1) }
             let tile3 : Tile := { suit := first.suit, value := some (v + 2) }
             if ts.contains tile2 && ts.contains tile3 then
               Hand.can_form_melds (((ts.erase first).erase tile2).erase tile3) n
             else false
           else false
         | _, _ => false)

/-- Check if tiles form a standard hand around some pair with the given number
of fixed melds (Hand._is_complete_standard_hand). -/
def Hand.is_complete_standard_hand (tiles : List Tile) (fixed_melds : Nat) : Bool :=
  if fixed_melds > 4 then false
  else
    let melds_needed := 4 - fixed_melds
    if tiles.length != 2 + melds_needed * 3 then false
    else
      (dedup_first tiles).any (fun tile =>
        if tiles.count tile ≥ 2 then
          Hand.can_form_melds ((tiles.erase tile).erase tile) melds_needed
        else false)

/-- Check for seven pairs (Hand._is_chiitoitsu). -/
def Hand.is_chiitoitsu (tiles : List Tile) : Bool :=
  if tiles.length != 14 then false
  else
    let counts := (dedup_first tiles).map (fun tile => tiles.count tile)
    counts.length == 7 && counts.all (fun c => c == 2)

/-- Terminal and honor kinds used by the kokushi check. -/
def Hand.kokushi_kinds : List Tile :=
  ([Suit.sou, Suit.pin, Suit.man].foldl (fun acc suit =>
    acc ++ [{ suit := suit, value := some 1 }, { suit := suit, value := some 9 }]) [])
  ++ [Wind.east, Wind.south, Wind.west, Wind.north].map
      (fun w => { suit := Suit.wind, wind := some w })
  ++ [Dragon.green, Dragon.red, Dragon.white].map
      (fun d => { suit := Suit.dragon, dragon := some d })

/-- Check for thirteen orphans (Hand._is_kokushi). -/
def Hand.is_kokushi (tiles : List Tile) : Bool :=
  if tiles.length != 14 then false
  else
    if !(Hand.kokushi_kinds.all (fun k => tiles.contains k)) then false
    else Hand.kokushi_kinds.any (fun k => tiles.count k ≥ 2)

/-- Check if tiles form a complete winning hand (Hand._is_complete_hand):
kokushi, seven pairs, or a standard hand with no fixed melds — each of which
requires exactly 14 tiles. -/
def Hand.is_complete_hand (tiles : List Tile) : Bool :=
  if tiles.length != 14 then false
  else
    Hand.is_kokushi tiles || Hand.is_chiitoitsu tiles ||
      Hand.is_complete_standard_hand tiles 0

/-- Get all tiles that would complete the hand (Hand.get_winning_tiles).  The
Python set of winning tiles is embedded as the sublist of the (duplicate-free)
34-kind enumeration that passes the completeness test. -/
def Hand.get_winning_tiles (h : Hand) : List Tile :=
  Hand.get_all_possible_tiles.filter (fun tile =>
    Hand.is_complete_hand (h.concealed_tiles ++ [tile]))

/-- Check if hand is one tile away from winning (Hand.is_tenpai). -/
def Hand.is_tenpai (h : Hand) : Bool :=
  h.get_winning_tiles.length > 0

/-- Get winning tiles for a hand with fixed melds
(Hand.get_winning_tiles_with_fixed_melds). -/
def Hand.get_winning_tiles_with_fixed_melds (concealed : List Tile) (fixed_melds : Nat) :
    List Tile :=
  Hand.get_all_possible_tiles.filter (fun tile =>
    Hand.is_complete_standard_hand (concealed ++ [tile]) fixed_melds)

/-- Check permanent furiten (Hand.check_furiten): set the flag exactly when
some own discard is currently a winning tile. -/
def Hand.check_furiten (h : Hand) : Bool × Hand :=
  let winning := h.get_winning_tiles
  if h.discards.any (fun t => winning.contains t) then
    (true, { h with furiten_state := true })
  else (false, { h with furiten_state := false })

/-- Declare riichi (Hand.declare_riichi); raises unless closed and tenpai. -/
def Hand.declare_riichi (h : Hand) (turn : Nat) : Except String Hand :=
  if !h.is_closed || !h.is_tenpai then
    .error ("Cannot declare riichi: hand must be closed and tenpai")
  else
    .ok { h with is_riichi := true, riichi_turn := some turn, ippatsu_eligible := true }

/-- All tiles in hand, concealed plus melds (Hand.get_all_tiles). -/
def Hand.get_all_tiles (h : Hand) : List Tile :=
  h.concealed_tiles ++ h.melds.foldl (fun acc m => acc ++ m.tiles) []

/-- Player state, from src/game/player.py (class Player). -/
structure Player where
  name : String
  seat_wind : Wind
  hand : Hand := {}
  score : Int := 25000
  is_dealer : Bool := false
  riichi_bets : Nat := 0
deriving DecidableEq, Repr

/-- Draw a tile from wall (Player.draw_tile). -/
def Player.draw_tile (p : Player) (tile : Tile) : Player :=
  { p with hand := p.hand.add_tile tile }

/-- Discard a tile (Player.discard_tile); raises when the tile is absent.
Modelled from the spec: the src/game/player.py signature takes only the tile,
yet MahjongEngine._execute_riichi passes a from_riichi_declaration keyword;
per spec section 4.2 ippatsu survives only the immediate post-declaration
discard, so the flag is forwarded to Hand.discard_tile. -/
def Player.discard_tile (p : Player) (tile : Tile) (from_riichi_declaration : Bool) :
    Except String (Tile × Player) :=
  if !(p.hand.concealed_tiles.contains tile) then
    .error ("Cannot discard tile not in hand")
  else
    .ok (tile, { p with hand := p.hand.discard_tile tile from_riichi_declaration })

/-- Possible chii sequences using a discarded tile (Player.can_call_chii). -/
def Player.can_call_chii (p : Player) (tile : Tile) (from_left : Bool) :
    List (List Tile) :=
  if !from_left then []
  else if tile.is_honor then []
  else
    let v : Int := (tile.value.getD 0 : Nat)
    ([-2, -1, 0] : List Int).foldl (fun acc offset =>
      if v + offset < 1 || v + offset > 7 then acc
      else
        let needed := (([0, 1, 2] : List Int).filter (fun i => i != -offset)).map
          (fun i => ({ suit := tile.suit, value := some (v + offset + i).toNat } : Tile))
        if needed.all (fun t => p.hand.concealed_tiles.contains t) then
          acc ++ [(([0, 1, 2] : List Int).map
            (fun i => ({ suit := tile.suit, value := some (v + offset + i).toNat } : Tile)))]
        else acc) []

/-- Check pon eligibility: two matching concealed tiles (Player.can_call_pon). -/
def Player.can_call_pon (p : Player) (tile : Tile) : Bool :=
  p.hand.concealed_tiles.count tile ≥ 2

/-- Check open-kan eligibility: three matching concealed tiles
(Player.can_call_kan). -/
def Player.can_call_kan (p : Player) (tile : Tile) : Bool :=
  p.hand.concealed_tiles.count tile ≥ 3

/-- Check ron eligibility (Player.can_call_ron): blocked by either furiten
flag, otherwise the tile must be a current winning tile. -/
def Player.can_call_ron (p : Player) (tile : Tile) : Bool :=
  if p.hand.furiten_state || p.hand.temp_furiten then false
  else p.hand.get_winning_tiles.contains tile

/-- Check tsumo eligibility (Player.can_tsumo). -/
def Player.can_tsumo (p : Player) : Bool :=
  p.hand.concealed_tiles.length == 14 && p.hand.is_tenpai

/-- Execute chii call (Player.call_chii): remove the non-called tiles of the
sequence (first occurrences, silently skipping absentees) and add the open
meld; called_from is always 3 in the source. -/
def Player.call_chii (p : Player) (tile : Tile) (sequence : List Tile) : Player :=
  let h1 := sequence.foldl (fun h t =>
    if t != tile then (h.remove_tile t).2 else h) p.hand
  { p with hand := h1.add_meld { tiles := sequence, is_open := true, called_from := some 3 } }

/-- Execute pon call (Player.call_pon): remove two matching tiles and add the
open triplet. -/
def Player.call_pon (p : Player) (tile : Tile) (called_from : Option Nat) : Player :=
  let h1 := ((p.hand.remove_tile tile).2.remove_tile tile).2
  let meld : Meld := { tiles := [tile, tile, tile], is_open := true, called_from := called_from }
  { p with hand := h1.add_meld meld }

/-- Execute kan call (Player.call_kan): with a discarder, remove three tiles
and add the open kan; without one, remove four tiles and add the closed kan. -/
def Player.call_kan (p : Player) (tile : Tile) (called_from : Option Nat) : Player :=
  match called_from with
  | some _ =>
    let h1 := (((p.hand.remove_tile tile).2.remove_tile tile).2.remove_tile tile).2
    let meld : Meld :=
      { tiles := [tile, tile, tile, tile], is_open := true, called_from := called_from }
    { p with hand := h1.add_meld meld }
  | none =>
    let h1 := ((((p.hand.remove_tile tile).2.remove_tile tile).2.remove_tile
        tile).2.remove_tile tile).2
    let meld : Meld :=
      { tiles := [tile, tile, tile, tile], is_open := false, called_from := none }
    { p with hand := h1.add_meld meld }

/-- Declare riichi (Player.declare_riichi): raises below 1000 points, then
delegates to the hand and pays the deposit. -/
def Player.declare_riichi (p : Player) (turn : Nat) : Except String Player :=
  if p.score < 1000 then .error ("Not enough points to declare riichi")
  else
    match p.hand.declare_riichi turn with
    | .error e => .error e
    | .ok h =>
      .ok { p with hand := h, score := p.score - 1000, riichi_bets := p.riichi_bets + 1 }

/-- Add points to the score (Player.add_score). -/
def Player.add_score (p : Player) (points : Int) : Player :=
  { p with score := p.score + points }

/-- Check if player is tenpai (Player.is_tenpai). -/
def Player.is_tenpai (p : Player) : Bool :=
  p.hand.is_tenpai

/-- Modelled from the spec: Player.can_upgrade_pon_to_kan is missing from
src/game/player.py although MahjongEngine._execute_closed_or_added_kan calls
it (and the repository's chankan test exercises the call).  Per spec section
4.6 an added kan upgrades an existing open pon by adding the fourth concealed
tile, so eligibility is an open triplet of the tile plus the tile in hand. -/
def Player.can_upgrade_pon_to_kan (p : Player) (tile : Tile) : Bool :=
  p.hand.melds.any (fun m => m.is_triplet && m.is_open && m.tiles.head? == some tile)
    && p.hand.concealed_tiles.contains tile

/-- Replace the first open triplet of the tile by the four-tile meld. -/
def upgrade_meld_list : List Meld → Tile → List Meld
  | [], _ => []
  | m :: ms, tile =>
    if m.is_triplet && m.is_open && m.tiles.head? == some tile then
      { m with tiles := m.tiles ++ [tile] } :: ms
    else m :: upgrade_meld_list ms tile

/-- Modelled from the spec: Player.upgrade_pon_to_kan is missing from
src/game/player.py although MahjongEngine._perform_added_kan calls it.  Per
spec section 4.6 the upgrade moves the fourth tile from the concealed hand
into the existing open pon, which keeps its caller attribution; when no
matching open pon or concealed tile exists the hand is left unchanged. -/
def Player.upgrade_pon_to_kan (p : Player) (tile : Tile) : Player :=
  if p.can_upgrade_pon_to_kan tile then
    { p with hand := { p.hand with
        concealed_tiles := p.hand.concealed_tiles.erase tile
        melds := upgrade_meld_list p.hand.melds tile } }
  else p

/-- Yaku record, from src/game/rules.py (dataclass Yaku). -/
structure Yaku where
  name : String
  han : Nat
  closed_only : Bool := false
deriving DecidableEq, Repr

/-- Situational flags that MahjongEngine._build_yaku_context passes to the
yaku evaluator (spec section 4.4). -/
structure YakuContext where
  is_ippatsu : Bool := false
  is_double_riichi : Bool := false
  is_rinshan : Bool := false
  is_chankan : Bool := false
  is_haitei : Bool := false
  is_houtei : Bool := false
  is_tenhou : Bool := false
  is_chiihou : Bool := false
deriving DecidableEq, Repr

/-- Insert a tile after all tiles whose `value or 0` is less than or equal. -/
def insert_by_value (x : Tile) : List Tile → List Tile
  | [] => [x]
  | y :: ys =>
    if y.value.getD 0 ≤ x.value.getD 0 then y :: insert_by_value x ys
    else x :: y :: ys

/-- Stable sort of tiles by `t.value or 0`, matching Python
`sorted(seq, key=lambda t: t.value or 0)`. -/
def sort_by_value (l : List Tile) : List Tile :=
  l.foldl (fun acc x => insert_by_value x acc) []

/-- Riichi declared (YakuChecker._check_riichi). -/
def YakuChecker.check_riichi (h : Hand) : Bool :=
  h.is_riichi

/-- Closed-hand self-draw (YakuChecker._check_menzen_tsumo). -/
def YakuChecker.check_menzen_tsumo (h : Hand) (is_tsumo : Bool) : Bool :=
  h.is_closed && is_tsumo

/-- All simples (YakuChecker._check_tanyao). -/
def YakuChecker.check_tanyao (tiles : List Tile) : Bool :=
  tiles.all (fun t => !t.is_terminal_or_honor)

/-- Greedy sequence extraction (YakuChecker._extract_sequences): repeatedly
peel the sequence starting at the least tile, failing when that is not
possible; on success return the recorded sequences.  Each level consumes
three tiles, so fuel equal to the tile count never runs out. -/
def YakuChecker.extract_sequences_fuel : Nat → List Tile → Option (List (List Tile))
  | _, [] => some []
  | 0, _ => none
  | fuel + 1, tiles =>
    let ts := sort_tiles tiles
    match ts.head? with
    | none => none
    | some first =>
      match first.suit, first.value with
      | .sou, some v | .pin, some v | .man, some v =>
        if v > 7 then none
        else
          let tile2 : Tile := { suit := first.suit, value := some (v + 1) }
          let tile3 : Tile := { suit := first.suit, value := some (v + 2) }
          if ts.contains tile2 && ts.contains tile3 then
            match YakuChecker.extract_sequences_fuel fuel
                (((ts.erase first).erase tile2).erase tile3) with
            | some rest => some ([first, tile2, tile3] :: rest)
            | none => none
          else none
      | _, _ => none

/-- Entry point for YakuChecker._extract_sequences. -/
def YakuChecker.extract_sequences (tiles : List Tile) : Option (List (List Tile)) :=
  YakuChecker.extract_sequences_fuel tiles.length tiles

/-- Two-sided-wait test (YakuChecker._is_ryanmen_wait): the first sequence
containing the winning tile decides; middle and edge waits are rejected. -/
def YakuChecker.is_ryanmen_wait (sequences : List (List Tile)) (winning_tile : Tile) :
    Bool :=
  match sequences.find? (fun s => s.contains winning_tile) with
  | none => false
  | some s =>
    let seq := sort_by_value s
    let d : Tile := { suit := Suit.sou, value := some 1 }
    if winning_tile == seq.getD 1 d then false
    else
      let low := (seq.getD 0 d).value.getD 0
      let high := (seq.getD 2 d).value.getD 0
      if winning_tile == seq.getD 2 d && low == 1 then false
      else if winning_tile == seq.getD 0 d && high == 9 then false
      else true

/-- Pinfu body (YakuChecker._is_pinfu_hand): some non-value pair leaves four
sequences with a two-sided wait. -/
def YakuChecker.is_pinfu_hand (tiles : List Tile) (winning_tile : Tile)
    (seat_wind round_wind : Wind) : Bool :=
  (dedup_first tiles).any (fun pair_tile =>
    if tiles.count pair_tile < 2 then false
    else if pair_tile.is_honor &&
        ((pair_tile.suit == Suit.wind &&
          (pair_tile.wind == some seat_wind || pair_tile.wind == some round_wind)) ||
         pair_tile.suit == Suit.dragon) then false
    else
      match YakuChecker.extract_sequences ((tiles.erase pair_tile).erase pair_tile) with
      | some sequences => YakuChecker.is_ryanmen_wait sequences winning_tile
      | none => false)

/-- All sequences, no value pair, two-sided wait (YakuChecker._check_pinfu). -/
def YakuChecker.check_pinfu (h : Hand) (winning_tile : Tile)
    (seat_wind round_wind : Wind) : Bool :=
  if !h.is_closed then false
  else
    let tiles :=
      if h.concealed_tiles.contains winning_tile then h.concealed_tiles
      else h.concealed_tiles ++ [winning_tile]
    if tiles.length != 14 then false
    else YakuChecker.is_pinfu_hand tiles winning_tile seat_wind round_wind

/-- Seven pairs (YakuChecker._check_chiitoitsu). -/
def YakuChecker.check_chiitoitsu (h : Hand) (winning_tile : Tile) : Bool :=
  if !h.is_closed then false
  else
    let tiles :=
      if h.concealed_tiles.length == 13 then h.concealed_tiles ++ [winning_tile]
      else h.concealed_tiles
    if tiles.length != 14 then false
    else
      let counts := (dedup_first tiles).map (fun tile => tiles.count tile)
      counts.length == 7 && counts.all (fun c => c == 2)

/-- Thirteen orphans (YakuChecker._check_kokushi). -/
def YakuChecker.check_kokushi (h : Hand) (winning_tile : Tile) : Bool :=
  if !h.is_closed then false
  else
    let tiles :=
      if h.concealed_tiles.length == 13 then h.concealed_tiles ++ [winning_tile]
      else h.concealed_tiles
    if tiles.length != 14 then false
    else
      if !(Hand.kokushi_kinds.all (fun k => tiles.contains k)) then false
      else Hand.kokushi_kinds.any (fun k => tiles.count k ≥ 2)

/-- All ways to split tiles into triplets and sequences
(YakuChecker._extract_melds): peel a triplet or a sequence of the least tile
and recurse.  Each level consumes three tiles, so fuel equal to the tile
count never runs out. -/
def YakuChecker.extract_melds_fuel : Nat → List Tile → List (List (List Tile))
  | _, [] => [[]]
  | 0, _ => []
  | fuel + 1, tiles =>
    let ts := sort_tiles tiles
    match ts.head? with
    | none => []
    | some first =>
      let triplet_results :=
        if ts.count first ≥ 3 then
          (YakuChecker.extract_melds_fuel fuel
              (((ts.erase first).erase first).erase first)).map
            (fun melds => [first, first, first] :: melds)
        else []
      let sequence_results :=
        match first.suit, first.value with
        | .sou, some v | .pin, some v | .man, some v =>
          if v ≤ 7 then
            let tile2 : Tile := { suit := first.suit, value := some (v + 1) }
            let tile3 : Tile := { suit := first.suit, value := some (v + 2) }
            if ts.contains tile2 && ts.contains tile3 then
              (YakuChecker.extract_melds_fuel fuel
                  (((ts.erase first).erase tile2).erase tile3)).map
                (fun melds => [first, tile2, tile3] :: melds)
            else []
          else []
        | _, _ => []
      triplet_results ++ sequence_results

/-- All decompositions of the completed hand into melds plus a pair
(YakuChecker._standard_decompositions): the fixed melds are prepended and the
concealed part (with the winning tile appended when one short) is split into
a pair and exactly the needed number of extracted melds. -/
def YakuChecker.standard_decompositions (h : Hand) (winning_tile : Tile) :
    List (List (List Tile) × Tile) :=
  if h.melds.length > 4 then []
  else
    let fixed_melds := h.melds.map (fun m => m.tiles)
    let melds_needed := 4 - h.melds.length
    let required_len := 2 + melds_needed * 3
    let concealed :=
      if h.concealed_tiles.length == required_len - 1 then
        h.concealed_tiles ++ [winning_tile]
      else h.concealed_tiles
    if concealed.length != required_len then []
    else
      (dedup_first concealed).foldl (fun acc pair_tile =>
        if concealed.count pair_tile < 2 then acc
        else
          acc ++
            ((YakuChecker.extract_melds_fuel concealed.length
                ((concealed.erase pair_tile).erase pair_tile)).filter
              (fun melds => melds.length == melds_needed)).map
              (fun melds => (fixed_melds ++ melds, pair_tile))) []

/-- Triplet-or-kan shape test (YakuChecker._is_triplet_meld). -/
def YakuChecker.is_triplet_meld (meld : List Tile) : Bool :=
  (meld.length == 3 || meld.length == 4) &&
    (match meld.head? with
     | some f => meld.all (fun t => t == f)
     | none => false)

/-- Sequence shape test (YakuChecker._is_sequence_meld). -/
def YakuChecker.is_sequence_meld (meld : List Tile) : Bool :=
  if meld.length != 3 then false
  else
    match meld.head? with
    | none => false
    | some f =>
      if !(f.suit == Suit.sou || f.suit == Suit.pin || f.suit == Suit.man) then false
      else
        let seq := sort_by_value meld
        let d : Tile := { suit := Suit.sou, value := some 1 }
        match (seq.getD 0 d).value with
        | none => false
        | some v =>
          (seq.getD 1 d).value == some (v + 1) && (seq.getD 2 d).value == some (v + 2)

/-- Maximum yakuhai triplet count over decompositions
(YakuChecker._check_yakuhai). -/
def YakuChecker.check_yakuhai (h : Hand) (seat_wind round_wind : Wind)
    (winning_tile : Tile) : Nat :=
  let is_value_tile : Tile → Bool := fun t =>
    t.suit == Suit.dragon ||
      (t.suit == Suit.wind && (t.wind == some seat_wind || t.wind == some round_wind))
  (YakuChecker.standard_decompositions h winning_tile).foldl (fun best d =>
    let count := d.1.foldl (fun c meld =>
      if YakuChecker.is_triplet_meld meld &&
          is_value_tile (meld.getD 0 { suit := Suit.sou, value := some 1 }) then c + 1
      else c) 0
    Nat.max best count) 0

/-- Check whether any two sequences of the list coincide after sorting. -/
def YakuChecker.has_duplicate_sequence : List (List Tile) → Bool
  | [] => false
  | s :: rest =>
    rest.any (fun s2 => sort_tiles s == sort_tiles s2) ||
      YakuChecker.has_duplicate_sequence rest

/-- Same sequence twice in a closed hand (YakuChecker._check_iipeikou). -/
def YakuChecker.check_iipeikou (h : Hand) (winning_tile : Tile) : Bool :=
  if !h.is_closed then false
  else
    (YakuChecker.standard_decompositions h winning_tile).any (fun d =>
      YakuChecker.has_duplicate_sequence (d.1.filter YakuChecker.is_sequence_meld))

/-- All triplets (YakuChecker._check_toitoi). -/
def YakuChecker.check_toitoi (h : Hand) (winning_tile : Tile) : Bool :=
  (YakuChecker.standard_decompositions h winning_tile).any (fun d =>
    d.1.all YakuChecker.is_triplet_meld)

/-- Half flush (YakuChecker._check_honitsu). -/
def YakuChecker.check_honitsu (tiles : List Tile) : Bool :=
  let suits_present := ((tiles.filter (fun t => !t.is_honor)).map Tile.suit).dedup
  suits_present.length == 1 && tiles.any Tile.is_honor

/-- Full flush (YakuChecker._check_chinitsu). -/
def YakuChecker.check_chinitsu (tiles : List Tile) : Bool :=
  if tiles.any Tile.is_honor then false
  else (tiles.map Tile.suit).dedup.length == 1

/-- Count dora in hand (YakuChecker._count_dora): one per dora-list hit, one
more per red five. -/
def YakuChecker.count_dora (tiles dora_tiles : List Tile) : Nat :=
  tiles.foldl (fun c t =>
    (if dora_tiles.contains t then c + 1 else c) + (if t.is_red then 1 else 0)) 0

/-- Completed 14-tile list (YakuChecker._complete_hand_tiles). -/
def YakuChecker.complete_hand_tiles (h : Hand) (winning_tile : Tile) : List Tile :=
  let tiles := h.get_all_tiles
  if tiles.length == 13 then tiles ++ [winning_tile] else tiles

/-- Three-suit sequences (YakuChecker._check_sanshoku_doujun). -/
def YakuChecker.check_sanshoku_doujun (h : Hand) (winning_tile : Tile) : Bool :=
  let d0 : Tile := { suit := Suit.sou, value := some 1 }
  (YakuChecker.standard_decompositions h winning_tile).any (fun d =>
    let sequences := d.1.filter YakuChecker.is_sequence_meld
    (List.range' 1 7).any (fun start =>
      let suits := (sequences.filterMap (fun meld =>
        let seq := sort_by_value meld
        if (seq.getD 0 d0).value == some start then some (seq.getD 0 d0).suit
        else none)).dedup
      suits.length == 3))

/-- Pure straight (YakuChecker._check_ittsu). -/
def YakuChecker.check_ittsu (h : Hand) (winning_tile : Tile) : Bool :=
  let d0 : Tile := { suit := Suit.sou, value := some 1 }
  (YakuChecker.standard_decompositions h winning_tile).any (fun d =>
    let sequences := d.1.filter YakuChecker.is_sequence_meld
    [Suit.sou, Suit.pin, Suit.man].any (fun suit =>
      let starts := sequences.filterMap (fun meld =>
        if (meld.getD 0 d0).suit == suit then
          (sort_by_value meld).getD 0 d0 |>.value
        else none)
      [1, 4, 7].all (fun s => starts.contains s)))

/-- Three concealed triplets (YakuChecker._check_sanankou): length-3 triplets
not completed by a ron, plus every length-4 kan in the decomposition. -/
def YakuChecker.check_sanankou (h : Hand) (winning_tile : Tile) (is_tsumo : Bool) :
    Bool :=
  (YakuChecker.standard_decompositions h winning_tile).any (fun d =>
    let concealed_triplets := d.1.foldl (fun c meld =>
      let c1 :=
        if YakuChecker.is_triplet_meld meld && meld.length == 3 then
          if !is_tsumo && meld.contains winning_tile then c else c + 1
        else c
      if YakuChecker.is_triplet_meld meld && meld.length == 4 then c1 + 1 else c1) 0
    concealed_triplets ≥ 3)

/-- Terminal/honor in every set (YakuChecker._check_chanta). -/
def YakuChecker.check_chanta (h : Hand) (winning_tile : Tile) : Bool :=
  (YakuChecker.standard_decompositions h winning_tile).any (fun d =>
    if !d.2.is_terminal_or_honor then false
    else
      d.1.all (fun meld => meld.any Tile.is_terminal_or_honor) &&
        d.1.any YakuChecker.is_sequence_meld)

/-- Terminal in every set, no honors (YakuChecker._check_junchan). -/
def YakuChecker.check_junchan (h : Hand) (winning_tile : Tile) : Bool :=
  (YakuChecker.standard_decompositions h winning_tile).any (fun d =>
    if d.2.is_honor || !d.2.is_terminal then false
    else
      d.1.all (fun meld =>
        !(meld.any Tile.is_honor) && meld.any Tile.is_terminal) &&
        d.1.any YakuChecker.is_sequence_meld)

/-- All terminals and honors in triplets (YakuChecker._check_honroutou). -/
def YakuChecker.check_honroutou (h : Hand) (winning_tile : Tile) : Bool :=
  let tiles := YakuChecker.complete_hand_tiles h winning_tile
  if !(tiles.all Tile.is_terminal_or_honor) then false
  else
    (YakuChecker.standard_decompositions h winning_tile).any (fun d =>
      d.1.all (fun meld => YakuChecker.is_triplet_meld meld && meld.length == 3))

/-- Dragon triplet count of a decomposition, as the source counts it: the
first three tiles equal and dragon-suited, length at least 3. -/
def YakuChecker.dragon_triplet_count (melds : List (List Tile)) : Nat :=
  melds.foldl (fun c meld =>
    match meld with
    | a :: b :: cc :: _ =>
      if a == b && b == cc && a.suit == Suit.dragon then c + 1 else c
    | _ => c) 0

/-- Wind triplet count of a decomposition, counted like the dragon version. -/
def YakuChecker.wind_triplet_count (melds : List (List Tile)) : Nat :=
  melds.foldl (fun c meld =>
    match meld with
    | a :: b :: cc :: _ =>
      if a == b && b == cc && a.suit == Suit.wind then c + 1 else c
    | _ => c) 0

/-- Two dragon triplets plus dragon pair (YakuChecker._check_shousangen). -/
def YakuChecker.check_shousangen (h : Hand) (winning_tile : Tile) : Bool :=
  (YakuChecker.standard_decompositions h winning_tile).any (fun d =>
    d.2.suit == Suit.dragon && YakuChecker.dragon_triplet_count d.1 == 2)

/-- Three dragon triplets (YakuChecker._check_daisangen). -/
def YakuChecker.check_daisangen (h : Hand) (winning_tile : Tile) : Bool :=
  (YakuChecker.standard_decompositions h winning_tile).any (fun d =>
    YakuChecker.dragon_triplet_count d.1 == 3)

/-- Four concealed triplets (YakuChecker._check_suuankou). -/
def YakuChecker.check_suuankou (h : Hand) (winning_tile : Tile) (is_tsumo : Bool) :
    Bool :=
  if !h.is_closed then false
  else
    (YakuChecker.standard_decompositions h winning_tile).any (fun d =>
      let triplets := d.1.foldl (fun c meld =>
        let c1 :=
          match meld with
          | [a, b, cc] =>
            if a == b && b == cc then
              if !is_tsumo && meld.contains winning_tile then c else c + 1
            else c
          | _ => c
        match meld with
        | [a, b, cc, dd] => if a == b && b == cc && cc == dd then c1 + 1 else c1
        | _ => c1) 0
      triplets == 4)

/-- Four kans (YakuChecker._check_suukantsu). -/
def YakuChecker.check_suukantsu (h : Hand) : Bool :=
  (h.melds.filter Meld.is_kan).length == 4

/-- All honors (YakuChecker._check_tsuuiisou). -/
def YakuChecker.check_tsuuiisou (h : Hand) (winning_tile : Tile) : Bool :=
  (YakuChecker.complete_hand_tiles h winning_tile).all Tile.is_honor

/-- All terminals (YakuChecker._check_chinroutou). -/
def YakuChecker.check_chinroutou (h : Hand) (winning_tile : Tile) : Bool :=
  (YakuChecker.complete_hand_tiles h winning_tile).all Tile.is_terminal

/-- All green (YakuChecker._check_ryuuiisou). -/
def YakuChecker.check_ryuuiisou (h : Hand) (winning_tile : Tile) : Bool :=
  let green_tiles : List Tile :=
    [{ suit := Suit.sou, value := some 2 }, { suit := Suit.sou, value := some 3 },
     { suit := Suit.sou, value := some 4 }, { suit := Suit.sou, value := some 6 },
     { suit := Suit.sou, value := some 8 },
     { suit := Suit.dragon, dragon := some Dragon.green }]
  (YakuChecker.complete_hand_tiles h winning_tile).all (fun t => green_tiles.contains t)

/-- Nine gates (YakuChecker._check_chuuren_poutou). -/
def YakuChecker.check_chuuren_poutou (h : Hand) (winning_tile : Tile) : Bool :=
  if !h.is_closed then false
  else
    let tiles := YakuChecker.complete_hand_tiles h winning_tile
    if tiles.length != 14 then false
    else if tiles.any Tile.is_honor then false
    else if (tiles.map Tile.suit).dedup.length != 1 then false
    else
      let cnt : Nat → Nat := fun n => tiles.countP (fun t => t.value == some n)
      let required : List (Nat × Nat) :=
        [(1, 3), (9, 3), (2, 1), (3, 1), (4, 1), (5, 1), (6, 1), (7, 1), (8, 1)]
      if required.any (fun r => cnt r.1 < r.2) then false
      else
        let total := ((List.range' 1 9).map cnt).sum
        total - 13 == 1 && total ≥ 13

/-- Three wind triplets plus wind pair (YakuChecker._check_shousuushii). -/
def YakuChecker.check_shousuushii (h : Hand) (winning_tile : Tile) : Bool :=
  (YakuChecker.standard_decompositions h winning_tile).any (fun d =>
    YakuChecker.wind_triplet_count d.1 == 3 && d.2.suit == Suit.wind)

/-- Four wind triplets (YakuChecker._check_daisuushii). -/
def YakuChecker.check_daisuushii (h : Hand) (winning_tile : Tile) : Bool :=
  (YakuChecker.standard_decompositions h winning_tile).any (fun d =>
    YakuChecker.wind_triplet_count d.1 == 4)

/-- Singleton or empty yaku list from a test result. -/
def opt_yaku (cond : Bool) (y : Yaku) : List Yaku :=
  if cond then [y] else []

/-- Full yaku evaluation (YakuChecker.check_all_yaku), appending each granted
yaku in source order and the dora pseudo-yaku last.  Modelled from the spec:
the src/game/rules.py signature has no situational keywords although
MahjongEngine passes the context flags of spec section 4.4 on every call (and
the tests expect context yaku such as Chankan); the flag-driven yaku are
appended between the catalogue and the dora count with their standard han
values, tenhou and chiihou as yakuman. -/
def YakuChecker.check_all_yaku (h : Hand) (winning_tile : Tile) (is_tsumo : Bool)
    (seat_wind round_wind : Wind) (dora_tiles : List Tile)
    (ura_dora_tiles : Option (List Tile)) (ctx : YakuContext) : List Yaku :=
  let all_tiles := h.get_all_tiles
  let dora_count :=
    YakuChecker.count_dora all_tiles dora_tiles +
      (match ura_dora_tiles with
       | some u => if h.is_riichi && u.length != 0 then YakuChecker.count_dora all_tiles u else 0
       | none => 0)
  opt_yaku (YakuChecker.check_riichi h) { name := "Riichi", han := 1, closed_only := true }
  ++ opt_yaku (YakuChecker.check_menzen_tsumo h is_tsumo)
      { name := "Menzen Tsumo", han := 1, closed_only := true }
  ++ opt_yaku (YakuChecker.check_tanyao all_tiles) { name := "Tanyao", han := 1 }
  ++ opt_yaku (YakuChecker.check_pinfu h winning_tile seat_wind round_wind)
      { name := "Pinfu", han := 1, closed_only := true }
  ++ opt_yaku (YakuChecker.check_chiitoitsu h winning_tile)
      { name := "Chiitoitsu", han := 2, closed_only := true }
  ++ opt_yaku (YakuChecker.check_kokushi h winning_tile)
      { name := "Kokushi Musou", han := 13, closed_only := true }
  ++ List.replicate (YakuChecker.check_yakuhai h seat_wind round_wind winning_tile)
      { name := "Yakuhai", han := 1 }
  ++ opt_yaku (YakuChecker.check_iipeikou h winning_tile)
      { name := "Iipeikou", han := 1, closed_only := true }
  ++ opt_yaku (YakuChecker.check_toitoi h winning_tile) { name := "Toitoi", han := 2 }
  ++ opt_yaku (YakuChecker.check_honitsu all_tiles)
      { name := "Honitsu", han := if h.is_closed then 3 else 2 }
  ++ opt_yaku (YakuChecker.check_chinitsu all_tiles)
      { name := "Chinitsu", han := if h.is_closed then 6 else 5 }
  ++ opt_yaku (YakuChecker.check_sanshoku_doujun h winning_tile)
      { name := "Sanshoku Doujun", han := if h.is_closed then 2 else 1 }
  ++ opt_yaku (YakuChecker.check_ittsu h winning_tile)
      { name := "Ittsu", han := if h.is_closed then 2 else 1 }
  ++ opt_yaku (YakuChecker.check_sanankou h winning_tile is_tsumo)
      { name := "Sanankou", han := 2 }
  ++ opt_yaku (YakuChecker.check_chanta h winning_tile)
      { name := "Chanta", han := if h.is_closed then 2 else 1 }
  ++ opt_yaku (YakuChecker.check_junchan h winning_tile)
      { name := "Junchan", han := if h.is_closed then 3 else 2 }
  ++ opt_yaku (YakuChecker.check_honroutou h winning_tile) { name := "Honroutou", han := 2 }
  ++ opt_yaku (YakuChecker.check_shousangen h winning_tile) { name := "Shousangen", han := 2 }
  ++ opt_yaku (YakuChecker.check_daisangen h winning_tile) { name := "Daisangen", han := 13 }
  ++ opt_yaku (YakuChecker.check_suuankou h winning_tile is_tsumo)
      { name := "Suuankou", han := 13, closed_only := true }
  ++ opt_yaku (YakuChecker.check_suukantsu h) { name := "Suukantsu", han := 13 }
  ++ opt_yaku (YakuChecker.check_tsuuiisou h winning_tile) { name := "Tsuuiisou", han := 13 }
  ++ opt_yaku (YakuChecker.check_chinroutou h winning_tile) { name := "Chinroutou", han := 13 }
  ++ opt_yaku (YakuChecker.check_ryuuiisou h winning_tile) { name := "Ryuuiisou", han := 13 }
  ++ opt_yaku (YakuChecker.check_chuuren_poutou h winning_tile)
      { name := "Chuuren Poutou", han := 13, closed_only := true }
  ++ opt_yaku (YakuChecker.check_shousuushii h winning_tile)
      { name := "Shousuushii", han := 13 }
  ++ opt_yaku (YakuChecker.check_daisuushii h winning_tile)
      { name := "Daisuushii", han := 13 }
  ++ opt_yaku ctx.is_ippatsu { name := "Ippatsu", han := 1, closed_only := true }
  ++ opt_yaku ctx.is_double_riichi
      { name := "Double Riichi", han := 1, closed_only := true }
  ++ opt_yaku ctx.is_rinshan { name := "Rinshan Kaihou", han := 1 }
  ++ opt_yaku ctx.is_chankan { name := "Chankan", han := 1 }
  ++ opt_yaku ctx.is_haitei { name := "Haitei Raoyue", han := 1 }
  ++ opt_yaku ctx.is_houtei { name := "Houtei Raoyui", han := 1 }
  ++ opt_yaku ctx.is_tenhou { name := "Tenhou", han := 13, closed_only := true }
  ++ opt_yaku ctx.is_chiihou { name := "Chiihou", han := 13, closed_only := true }
  ++ opt_yaku (dora_count > 0) { name := "Dora", han := dora_count }

/-- Payments dictionary returned by the scoring calculator; absent keys are
`none` (Scoring.calculate_score builds exactly one of the three shapes). -/
structure Payments where
  all : Option Nat := none
  dealer : Option Nat := none
  non_dealer : Option Nat := none
  discarder : Option Nat := none
deriving DecidableEq, Repr

/-- Round up to the next multiple of 100 (Scoring._round_up_100). -/
def Scoring.round_up_100 (points : Nat) : Nat :=
  ((points + 99) / 100) * 100

/-- Round up to the next multiple of 10 (Scoring._round_up_10). -/
def Scoring.round_up_10 (points : Nat) : Nat :=
  ((points + 9) / 10) * 10

/-- Base points with limit hands (Scoring._calculate_base_points). -/
def Scoring.calculate_base_points (fu : Nat) (han : Nat) : Nat :=
  if han ≥ 13 then 8000
  else if han ≥ 11 then 6000
  else if han ≥ 8 then 4000
  else if han ≥ 6 then 3000
  else
    let base := fu * 2 ^ (han + 2)
    if han ≥ 5 || base ≥ 2000 then 2000
    else base

/-- Fu of one meld (Scoring._meld_fu): triplets and kans only, doubled when
open→closed and again for terminal/honor tiles. -/
def Scoring.meld_fu (meld_tiles : List Tile) (is_open : Bool) : Nat :=
  if !(meld_tiles.length == 3 || meld_tiles.length == 4) then 0
  else
    match meld_tiles.head? with
    | none => 0
    | some first =>
      if !(meld_tiles.all (fun t => t == first)) then 0
      else
        let base :=
          if meld_tiles.length == 3 then (if is_open then 2 else 4)
          else (if is_open then 8 else 16)
        base * (if first.is_terminal_or_honor then 2 else 1)

/-- Meld fu over a decomposition (Scoring._meld_fu_total_with_win): a triplet
containing a ron-won tile counts as open. -/
def Scoring.meld_fu_total_with_win (melds : List (List Tile)) (is_tsumo : Bool)
    (winning_tile : Tile) : Nat :=
  melds.foldl (fun total meld =>
    let treat_open :=
      !is_tsumo && (meld.length == 3 || meld.length == 4) &&
        (match meld.head? with
         | some f => meld.all (fun t => t == f)
         | none => false) &&
        meld.contains winning_tile
    total + Scoring.meld_fu meld treat_open) 0

/-- Count yakuman multiples in a yaku list (Scoring._count_yakuman): every
non-dora yaku of han at least 13 counts `han / 13` times. -/
def Scoring.count_yakuman (yaku_list : List Yaku) : Nat :=
  yaku_list.foldl (fun c y =>
    if y.name == "Dora" then c
    else if y.han ≥ 13 then c + Nat.max 1 (y.han / 13)
    else c) 0

/-- Pair fu (Scoring._pair_fu): dragons 2, plus 2 per matching wind role. -/
def Scoring.pair_fu (pair_tile : Tile) (seat_wind round_wind : Wind) : Nat :=
  if pair_tile.suit == Suit.dragon then 2
  else if pair_tile.suit == Suit.wind then
    (if pair_tile.wind == some seat_wind then 2 else 0) +
      (if pair_tile.wind == some round_wind then 2 else 0)
  else 0

/-- Wait fu (Scoring._wait_fu): 2 for a pair wait, and 2 for a middle or edge
wait in some sequence containing the winning tile. -/
def Scoring.wait_fu (pair_tile : Tile) (melds : List (List Tile))
    (winning_tile : Tile) : Nat :=
  if winning_tile == pair_tile then 2
  else
    let d0 : Tile := { suit := Suit.sou, value := some 1 }
    melds.foldl (fun best meld =>
      if !(meld.contains winning_tile) then best
      else if meld.length != 3 then best
      else if (match meld.head? with
               | some f => meld.all (fun t => t == f)
               | none => false) then best
      else
        let seq := sort_by_value meld
        if winning_tile == seq.getD 1 d0 then Nat.max best 2
        else
          let low := (seq.getD 0 d0).value.getD 0
          let high := (seq.getD 2 d0).value.getD 0
          if low == 1 && winning_tile == seq.getD 2 d0 then Nat.max best 2
          else if high == 9 && winning_tile == seq.getD 0 d0 then Nat.max best 2
          else best) 0

/-- Scoring's own decomposition of 14 concealed tiles into four melds and a
pair (Scoring._decompose_standard_hand), using the same extraction as the
yaku checker. -/
def Scoring.decompose_standard_hand (tiles : List Tile) :
    List (List (List Tile) × Tile) :=
  if tiles.length != 14 then []
  else
    (dedup_first tiles).foldl (fun acc pair_tile =>
      if tiles.count pair_tile < 2 then acc
      else
        acc ++ (YakuChecker.extract_melds_fuel tiles.length
            ((tiles.erase pair_tile).erase pair_tile)).map
          (fun melds => (melds, pair_tile))) []

/-- Fu of a completed hand (Scoring.calculate_fu): fixed 0/25/20 for kokushi,
chiitoitsu and pinfu-tsumo; otherwise the maximum over decompositions of base
plus menzen/tsumo bonus, open-meld fu, pair fu, meld fu and wait fu, rounded
up to a multiple of 10 and floored at 30. -/
def Scoring.calculate_fu (h : Hand) (winning_tile : Tile) (is_tsumo : Bool)
    (seat_wind round_wind : Wind) (yaku_list : List Yaku) : Nat :=
  let yaku_names := yaku_list.map Yaku.name
  if yaku_names.contains "Kokushi Musou" then 0
  else if yaku_names.contains "Chiitoitsu" then 25
  else if yaku_names.contains "Pinfu" && is_tsumo then 20
  else
    let tiles :=
      if h.concealed_tiles.length == 13 then h.concealed_tiles ++ [winning_tile]
      else h.concealed_tiles
    let decompositions := Scoring.decompose_standard_hand tiles
    if decompositions.length == 0 then 30
    else
      let base_fu : Nat :=
        20 +
          (if is_tsumo && !(yaku_names.contains "Pinfu") then 2
           else if h.is_closed then 10 else 0)
      let open_meld_fu := h.melds.foldl (fun acc m => acc + Scoring.meld_fu m.tiles m.is_open) 0
      decompositions.foldl (fun max_fu d =>
        let fu0 := base_fu + open_meld_fu + Scoring.pair_fu d.2 seat_wind round_wind +
          Scoring.meld_fu_total_with_win d.1 is_tsumo winning_tile +
          (if yaku_names.contains "Pinfu" then 0 else Scoring.wait_fu d.2 d.1 winning_tile)
        let fu1 := Scoring.round_up_10 fu0
        let fu2 := if fu1 < 30 then 30 else fu1
        Nat.max max_fu fu2) 0

/-- Final score and payment split (Scoring.calculate_score).  Raises on a
zero-han list; yakuman lists use the fixed 8000 base times the multiple; the
fu parameter wins over fu computation, which itself needs the full optional
hand context and otherwise defaults to 30. -/
def Scoring.calculate_score (yaku_list : List Yaku) (is_dealer : Bool)
    (is_tsumo : Bool) (hand : Option Hand) (winning_tile : Option Tile)
    (seat_wind : Option Wind) (round_wind : Option Wind) (fu : Option Nat)
    (honba : Nat) : Except String (Nat × Payments) :=
  let total_han := (yaku_list.map Yaku.han).sum
  let yakuman_count := Scoring.count_yakuman yaku_list
  if total_han == 0 then .error ("No yaku - cannot win")
  else
    let base_points :=
      if yakuman_count > 0 then 8000 * yakuman_count
      else
        let fu_val :=
          match fu with
          | some f => f
          | none =>
            match hand, winning_tile, seat_wind, round_wind with
            | some h, some wt, some sw, some rw =>
              Scoring.calculate_fu h wt is_tsumo sw rw yaku_list
            | _, _, _, _ => 30
        Scoring.calculate_base_points fu_val total_han
    if is_tsumo then
      if is_dealer then
        let payment_per_player := Scoring.round_up_100 (base_points * 2) + honba * 100
        .ok (payment_per_player * 3, { all := some payment_per_player })
      else
        let dealer_payment := Scoring.round_up_100 (base_points * 2) + honba * 100
        let non_dealer_payment := Scoring.round_up_100 base_points + honba * 100
        .ok (dealer_payment + non_dealer_payment * 2,
          { dealer := some dealer_payment, non_dealer := some non_dealer_payment })
    else
      let ron_multiplier := if is_dealer then 6 else 4
      let final_score := Scoring.round_up_100 (base_points * ron_multiplier) + honba * 300
      .ok (final_score, { discarder := some final_score })

/-- Game phase (engine.py class GamePhase). -/
inductive GamePhase where
  | dealing
  | playing
  | ended
deriving DecidableEq, Repr

/-- String value of a phase (the Python enum value). -/
def GamePhase.str : GamePhase → String
  | .dealing => "dealing"
  | .playing => "playing"
  | .ended => "ended"

/-- Result dictionary of MahjongEngine.execute_action.  Keys that a handler
does not set are the Python-falsy defaults here, matching the source's use of
`result.get(...)`. -/
structure ActionResult where
  success : Bool := false
  message : String := ""
  game_ended : Bool := false
  winner : Option Nat := none
  score : Option Nat := none
  yaku : List (String × Nat) := []
  tenpai_players : List Nat := []
  pending_chankan : Bool := false
  responders : List Nat := []
deriving DecidableEq, Repr

/-- Keyword arguments of execute_action: a missing key is `none`/`[]`. -/
structure Params where
  tile : Option String := none
  sequence : List String := []
deriving DecidableEq, Repr

/-- Engine state: the fields MahjongEngine.__init__ creates.  The chankan
responder set is kept as a duplicate-free list. -/
structure MahjongEngine where
  players : List Player
  wall : Wall
  current_player : Nat := 0
  dealer : Nat := 0
  round_wind : Wind := Wind.east
  round_number : Nat := 1
  turn_number : Nat := 0
  phase : GamePhase := GamePhase.dealing
  last_discard : Option Tile := none
  last_discard_player : Option Nat := none
  riichi_bets : Nat := 0
  honba : Nat := 0
  last_action_was_kan_draw : Bool := false
  has_open_call : Bool := false
  pending_chankan_tile : Option Tile := none
  pending_chankan_from : Option Nat := none
  pending_chankan_responders : List Nat := []
deriving DecidableEq, Repr

/-- Placeholder player used only as the default of guarded list reads. -/
def default_player : Player :=
  { name := "", seat_wind := Wind.east }

/-- Indexing into the player list, raising IndexError like Python. -/
def MahjongEngine.get_player (s : MahjongEngine) (i : Nat) : Except String Player :=
  if h : i < s.players.length then .ok (s.players.get ⟨i, h⟩)
  else .error ("list index out of range")

/-- Writing back one player slot. -/
def MahjongEngine.set_player (s : MahjongEngine) (i : Nat) (p : Player) : MahjongEngine :=
  { s with players := s.players.set i p }

/-- Clear every player's ippatsu flag (MahjongEngine._clear_ippatsu_all). -/
def MahjongEngine.clear_ippatsu_all (s : MahjongEngine) : MahjongEngine :=
  { s with players := s.players.map (fun p =>
      { p with hand := { p.hand with ippatsu_eligible := false } }) }

/-- Reset the chankan sub-state (MahjongEngine._clear_pending_chankan). -/
def MahjongEngine.clear_pending_chankan (s : MahjongEngine) : MahjongEngine :=
  { s with pending_chankan_tile := none, pending_chankan_from := none,
           pending_chankan_responders := [] }

/-- Situational flags for a win check (MahjongEngine._build_yaku_context). -/
def MahjongEngine.build_yaku_context (s : MahjongEngine) (player_index : Nat)
    (is_tsumo : Bool) (is_chankan : Bool) : YakuContext :=
  let p := s.players.getD player_index default_player
  let no_discards_yet := s.players.all (fun q => q.hand.discards.length == 0)
  let last_tile := s.wall.tiles_remaining == 0
  { is_ippatsu := p.hand.is_riichi && p.hand.ippatsu_eligible
    is_double_riichi := p.hand.is_riichi && p.hand.riichi_turn == some 0
    is_rinshan := is_tsumo && s.last_action_was_kan_draw
    is_chankan := is_chankan
    is_haitei := is_tsumo && last_tile
    is_houtei := !is_tsumo && last_tile
    is_tenhou := is_tsumo && p.is_dealer && s.turn_number == 0 && no_discards_yet &&
      !s.has_open_call
    is_chiihou := is_tsumo && !p.is_dealer && p.hand.discards.length == 0 &&
      s.turn_number ≤ 3 && !s.has_open_call }

/-- Check that a win carries at least one non-dora yaku
(MahjongEngine._has_yaku_for_win).  The source recovers the seat with
`self.players.index(player)`, i.e. the first equal entry. -/
def MahjongEngine.has_yaku_for_win (s : MahjongEngine) (player : Player)
    (winning_tile : Tile) (is_tsumo : Bool) (is_chankan : Bool) : Bool :=
  let player_index := s.players.findIdx (fun q => q == player)
  let ctx := s.build_yaku_context player_index is_tsumo is_chankan
  let yaku_list := YakuChecker.check_all_yaku player.hand winning_tile is_tsumo
    player.seat_wind s.round_wind s.wall.get_dora_tiles
    (if player.hand.is_riichi then some s.wall.get_ura_dora_tiles else none) ctx
  yaku_list.any (fun y => y.name != "Dora")

/-- Seats able to rob the pending added kan
(MahjongEngine._find_chankan_responders). -/
def MahjongEngine.find_chankan_responders (s : MahjongEngine) (tile : Tile)
    (kan_player : Nat) : List Nat :=
  (List.range s.players.length).filter (fun idx =>
    idx != kan_player &&
      (s.players.getD idx default_player).can_call_ron tile &&
      s.has_yaku_for_win (s.players.getD idx default_player) tile false true)

/-- Riichi eligibility (MahjongEngine._can_declare_riichi). -/
def MahjongEngine.can_declare_riichi (s : MahjongEngine) (player_index : Nat) : Bool :=
  let p := s.players.getD player_index default_player
  p.hand.is_closed && p.is_tenpai && p.score ≥ 1000 && !p.hand.is_riichi

/-- Riichi kan restriction (MahjongEngine._riichi_kan_allowed): outside riichi
always allowed; in riichi the four tiles must exist and removing them as a
fixed meld must leave the winning-tile set unchanged.  Both sets are filters
of the same 34-kind enumeration, so Python's set equality is list equality. -/
def MahjongEngine.riichi_kan_allowed (s : MahjongEngine) (player : Player)
    (kan_tile : Tile) : Bool :=
  if !player.hand.is_riichi then true
  else if player.hand.concealed_tiles.count kan_tile < 4 then false
  else
    let before_waits := Hand.get_winning_tiles_with_fixed_melds
      player.hand.concealed_tiles player.hand.melds.length
    let after_tiles := ((((player.hand.concealed_tiles.erase kan_tile).erase
      kan_tile).erase kan_tile).erase kan_tile)
    let after_waits := Hand.get_winning_tiles_with_fixed_melds after_tiles
      (player.hand.melds.length + 1)
    before_waits == after_waits

/-- Closed-kan candidates as tile strings (MahjongEngine.can_call_closed_kan):
concealed tiles held four times whose kan passes the riichi restriction, in
first-occurrence order like the Python counting dict. -/
def MahjongEngine.can_call_closed_kan (s : MahjongEngine) (player_index : Nat) :
    List String :=
  let p := s.players.getD player_index default_player
  (dedup_first p.hand.concealed_tiles).filterMap (fun tile =>
    if p.hand.concealed_tiles.count tile == 4 then
      if s.riichi_kan_allowed p tile then some tile.str else none
    else none)

/-- Upgradeable pon melds as tile strings
(MahjongEngine.can_upgrade_pon_to_kan): none in riichi, otherwise every open
triplet whose fourth tile is concealed. -/
def MahjongEngine.can_upgrade_pon_to_kan (s : MahjongEngine) (player_index : Nat) :
    List String :=
  let p := s.players.getD player_index default_player
  if p.hand.is_riichi then []
  else
    p.hand.melds.filterMap (fun m =>
      if m.is_triplet && m.is_open then
        match m.tiles.head? with
        | some mt => if p.hand.concealed_tiles.contains mt then some mt.str else none
        | none => none
      else none)

/-- Tsumo payment application (MahjongEngine._apply_tsumo_payments): each
non-winner pays the matching share, the winner also collects the pooled
riichi bets, which are then zeroed.  The score argument is unused, as in the
source. -/
def MahjongEngine.apply_tsumo_payments (s : MahjongEngine) (winner_index : Nat)
    (score : Nat) (payments : Payments) : MahjongEngine :=
  let winner0 := s.players.getD winner_index default_player
  let s1 :=
    if winner0.is_dealer then
      let payment : Int := (payments.all.getD 0 : Nat)
      (List.range s.players.length).foldl (fun st i =>
        if i == winner_index then st
        else
          let st2 := st.set_player i ((st.players.getD i default_player).add_score (-payment))
          st2.set_player winner_index
            ((st2.players.getD winner_index default_player).add_score payment)) s
    else
      let dealer_payment : Int := (payments.dealer.getD 0 : Nat)
      let non_dealer_payment : Int := (payments.non_dealer.getD 0 : Nat)
      (List.range s.players.length).foldl (fun st i =>
        if i == winner_index then st
        else
          let target := st.players.getD i default_player
          let pay := if target.is_dealer then dealer_payment else non_dealer_payment
          let st2 := st.set_player i (target.add_score (-pay))
          st2.set_player winner_index
            ((st2.players.getD winner_index default_player).add_score pay)) s
  let s2 := s1.set_player winner_index
    ((s1.players.getD winner_index default_player).add_score ((s1.riichi_bets : Int) * 1000))
  { s2 with riichi_bets := 0 }

/-- Honba bookkeeping after a win (MahjongEngine._update_honba_after_win). -/
def MahjongEngine.update_honba_after_win (s : MahjongEngine) (winner_index : Nat) :
    MahjongEngine :=
  if (s.players.getD winner_index default_player).is_dealer then
    { s with honba := s.honba + 1 }
  else { s with honba := 0 }

/-- Wall-exhaustion settlement (MahjongEngine._handle_draw): phase to ended,
honba up, chankan state cleared, and the 3000-point tenpai/noten transfer
when one to three players are tenpai. -/
def MahjongEngine.handle_draw (s : MahjongEngine) : MahjongEngine × ActionResult :=
  let s1 := s.clear_pending_chankan
  let s2 := { s1 with phase := GamePhase.ended, honba := s1.honba + 1 }
  let tenpai_players := (List.range s2.players.length).filter (fun i =>
    (s2.players.getD i default_player).is_tenpai)
  let n := tenpai_players.length
  let s3 :=
    if 0 < n && n < 4 then
      let payment_per_tenpai : Int := ((3000 / n : Nat) : Int)
      let payment_per_noten : Int := ((3000 / (4 - n) : Nat) : Int)
      { s2 with players := s2.players.enum.map (fun pr =>
          if tenpai_players.contains pr.1 then pr.2.add_score payment_per_tenpai
          else pr.2.add_score (-payment_per_noten)) }
    else s2
  (s3, { success := true, message := "Game drawn - wall empty", game_ended := true,
         tenpai_players := tenpai_players })

/-- Execute discard (MahjongEngine._execute_discard): turn check, find the
named tile, move it to the discard pile, record the discard, and recompute
permanent furiten for every player. -/
def MahjongEngine.execute_discard (s : MahjongEngine) (player_index : Nat)
    (tile_str : Option String) : MahjongEngine × Except String ActionResult :=
  if player_index != s.current_player then
    (s, .ok { success := false, message := "Not your turn" })
  else
    match s.get_player player_index with
    | .error e => (s, .error e)
    | .ok player =>
      match player.hand.concealed_tiles.find? (fun t => some t.str == tile_str) with
      | none => (s, .ok { success := false, message := "Tile not found in hand" })
      | some tile_to_discard =>
        match player.discard_tile tile_to_discard false with
        | .error e => (s, .error e)
        | .ok (discarded_tile, p1) =>
          let s1 := s.set_player player_index p1
          let s2 := { s1 with last_discard := some discarded_tile,
                              last_discard_player := some player_index,
                              last_action_was_kan_draw := false }
          let s3 := { s2 with players := s2.players.map (fun p =>
              { p with hand := (p.hand.check_furiten).2 }) }
          (s3, .ok { success := true, message := "Discarded " ++ discarded_tile.str })

/-- Execute tsumo (MahjongEngine._execute_tsumo): eligibility, the winning
tile (last draw or rightmost concealed tile), the no-yaku gate, scoring,
payment application, and round end. -/
def MahjongEngine.execute_tsumo (s : MahjongEngine) (player_index : Nat) :
    MahjongEngine × Except String ActionResult :=
  match s.get_player player_index with
  | .error e => (s, .error e)
  | .ok player =>
    if !player.can_tsumo then
      (s, .ok { success := false, message := "Cannot tsumo" })
    else
      match (match player.hand.last_drawn_tile with
             | some t => some t
             | none => player.hand.concealed_tiles.getLast?) with
      | none => (s, .error ("list index out of range"))
      | some winning_tile =>
        let ctx := s.build_yaku_context player_index true false
        let yaku_list := YakuChecker.check_all_yaku player.hand winning_tile true
          player.seat_wind s.round_wind s.wall.get_dora_tiles
          (if player.hand.is_riichi then some s.wall.get_ura_dora_tiles else none) ctx
        if !(yaku_list.any (fun y => y.name != "Dora")) then
          (s, .ok { success := false, message := "No yaku - cannot win" })
        else
          match Scoring.calculate_score yaku_list player.is_dealer true
              (some player.hand) (some winning_tile) (some player.seat_wind)
              (some s.round_wind) none s.honba with
          | .error e => (s, .error e)
          | .ok (score, payments) =>
            let s1 := s.apply_tsumo_payments player_index score payments
            let s2 := s1.clear_pending_chankan
            let s3 := { s2 with phase := GamePhase.ended }
            let s4 := s3.update_honba_after_win player_index
            (s4, .ok { success := true, message := player.name ++ " won by tsumo!",
                       game_ended := true, winner := some player_index,
                       score := some score,
                       yaku := yaku_list.map (fun y => (y.name, y.han)) })

/-- Execute ron (MahjongEngine._execute_ron): the pending chankan tile wins
priority over the last discard; eligibility, the no-yaku gate, scoring, the
point transfer with the riichi pool, and round end. -/
def MahjongEngine.execute_ron (s : MahjongEngine) (player_index : Nat) :
    MahjongEngine × Except String ActionResult :=
  match s.get_player player_index with
  | .error e => (s, .error e)
  | .ok player =>
    let chankan_case := s.pending_chankan_tile.isSome &&
      s.pending_chankan_responders.contains player_index
    let is_chankan := chankan_case
    let winning_tile_opt :=
      if chankan_case then s.pending_chankan_tile
      else s.last_discard
    let discarder_opt :=
      if chankan_case then s.pending_chankan_from
      else if s.last_discard.isSome then s.last_discard_player
      else none
    match winning_tile_opt, discarder_opt with
    | some winning_tile, some discarder_index =>
      if !(player.can_call_ron winning_tile) then
        (s, .ok { success := false, message := "Cannot call ron" })
      else
        let ctx := s.build_yaku_context player_index false is_chankan
        let yaku_list := YakuChecker.check_all_yaku player.hand winning_tile false
          player.seat_wind s.round_wind s.wall.get_dora_tiles
          (if player.hand.is_riichi then some s.wall.get_ura_dora_tiles else none) ctx
        if !(yaku_list.any (fun y => y.name != "Dora")) then
          (s, .ok { success := false, message := "No yaku - cannot win" })
        else
          match Scoring.calculate_score yaku_list player.is_dealer false
              (some player.hand) (some winning_tile) (some player.seat_wind)
              (some s.round_wind) none s.honba with
          | .error e => (s, .error e)
          | .ok (score, _payments) =>
            match s.get_player discarder_index with
            | .error e => (s, .error e)
            | .ok discarder =>
              let s1 := s.set_player discarder_index (discarder.add_score (-(score : Int)))
              let s2 := s1.set_player player_index
                ((s1.players.getD player_index default_player).add_score (score : Int))
              let s3 := s2.set_player player_index
                ((s2.players.getD player_index default_player).add_score
                  ((s2.riichi_bets : Int) * 1000))
              let s4 := { s3 with riichi_bets := 0 }
              let s5 := s4.clear_pending_chankan
              let s6 := { s5 with phase := GamePhase.ended }
              let s7 := s6.update_honba_after_win player_index
              (s7, .ok { success := true, message := player.name ++ " won by ron!",
                         game_ended := true, winner := some player_index,
                         score := some score,
                         yaku := yaku_list.map (fun y => (y.name, y.han)) })
    | _, _ => (s, .ok { success := false, message := "Cannot call ron" })

/-- Execute riichi (MahjongEngine._execute_riichi): turn and eligibility
checks, the declaration with its deposit, then the locked discard. -/
def MahjongEngine.execute_riichi (s : MahjongEngine) (player_index : Nat)
    (tile_str : Option String) : MahjongEngine × Except String ActionResult :=
  if player_index != s.current_player then
    (s, .ok { success := false, message := "Not your turn" })
  else
    match s.get_player player_index with
    | .error e => (s, .error e)
    | .ok player =>
      if !(s.can_declare_riichi player_index) then
        (s, .ok { success := false, message := "Cannot declare riichi" })
      else
        match player.hand.concealed_tiles.find? (fun t => some t.str == tile_str) with
        | none => (s, .ok { success := false, message := "Tile not found in hand" })
        | some tile_to_discard =>
          match player.declare_riichi s.turn_number with
          | .error e => (s, .error e)
          | .ok p1 =>
            let s1 := s.set_player player_index p1
            let s2 := { s1 with riichi_bets := s1.riichi_bets + 1 }
            match p1.discard_tile tile_to_discard true with
            | .error e => (s2, .error e)
            | .ok (discarded_tile, p2) =>
              let s3 := s2.set_player player_index p2
              let s4 := { s3 with last_discard := some discarded_tile,
                                  last_discard_player := some player_index,
                                  last_action_was_kan_draw := false }
              (s4, .ok { success := true,
                         message := player.name ++ " declared riichi and discarded " ++
                           discarded_tile.str })

/-- Execute chii (MahjongEngine._execute_chii): only from the left neighbour;
the two named hand tiles plus the discard are sorted by raw tile value — a
TypeError in Python when any of them is an honor — melded, and the turn
passes to the caller. -/
def MahjongEngine.execute_chii (s : MahjongEngine) (player_index : Nat)
    (sequence : List String) : MahjongEngine × Except String ActionResult :=
  match s.get_player player_index with
  | .error e => (s, .error e)
  | .ok player =>
    match s.last_discard with
    | none => (s, .ok { success := false, message := "No tile to call" })
    | some last_discard =>
      match s.last_discard_player with
      | none =>
        (s, .error ("unsupported operand type for +: NoneType and int"))
      | some ldp =>
        if (ldp + 1) % 4 != player_index then
          (s, .ok { success := false, message := "Can only chii from left player" })
        else
          let sequence_tiles := sequence.foldl (fun acc ts =>
            match player.hand.concealed_tiles.find? (fun t => t.str == ts) with
            | some t => acc ++ [t]
            | none => acc) []
          if sequence_tiles.length != 2 then
            (s, .ok { success := false, message := "Invalid sequence" })
          else
            let full_sequence := sequence_tiles ++ [last_discard]
            if full_sequence.any (fun t => t.value == none) then
              (s, .error ("unorderable types: NoneType in sort"))
            else
              let sorted_sequence := sort_by_value full_sequence
              let p1 := player.call_chii last_discard sorted_sequence
              let s1 := (s.set_player player_index p1).clear_ippatsu_all
              let s2 := { s1 with has_open_call := true, current_player := player_index,
                                  last_discard := none, last_action_was_kan_draw := false }
              (s2, .ok { success := true, message := player.name ++ " called chii" })

/-- Execute pon (MahjongEngine._execute_pon). -/
def MahjongEngine.execute_pon (s : MahjongEngine) (player_index : Nat) :
    MahjongEngine × Except String ActionResult :=
  match s.get_player player_index with
  | .error e => (s, .error e)
  | .ok player =>
    match s.last_discard with
    | none => (s, .ok { success := false, message := "Cannot call pon" })
    | some last_discard =>
      if !(player.can_call_pon last_discard) then
        (s, .ok { success := false, message := "Cannot call pon" })
      else
        let p1 := player.call_pon last_discard s.last_discard_player
        let s1 := (s.set_player player_index p1).clear_ippatsu_all
        let s2 := { s1 with has_open_call := true, current_player := player_index,
                            last_discard := none, last_action_was_kan_draw := false }
        (s2, .ok { success := true, message := player.name ++ " called pon" })

/-- Shared kan epilogue: reset the rinshan flag, and when the wall still has
tiles give the caller the replacement draw and set the flag.  This embeds the
draw block repeated verbatim in the three kan paths of the source. -/
def MahjongEngine.kan_replacement_draw (s : MahjongEngine) (player_index : Nat) :
    MahjongEngine :=
  let s1 := { s with last_action_was_kan_draw := false }
  if s1.wall.tiles_remaining > 0 then
    match s1.wall.tiles with
    | [] => s1
    | t :: rest =>
      let s2 := { s1 with wall := { s1.wall with tiles := rest } }
      let s3 := s2.set_player player_index
        ((s2.players.getD player_index default_player).draw_tile t)
      { s3 with last_action_was_kan_draw := true }
  else s1

/-- Execute an open kan on the last discard (MahjongEngine._execute_kan). -/
def MahjongEngine.execute_kan (s : MahjongEngine) (player_index : Nat) :
    MahjongEngine × Except String ActionResult :=
  match s.get_player player_index with
  | .error e => (s, .error e)
  | .ok player =>
    match s.last_discard with
    | some last_discard =>
      if !(player.can_call_kan last_discard) then
        (s, .ok { success := false, message := "Cannot call kan" })
      else
        let p1 := player.call_kan last_discard s.last_discard_player
        let s1 := (s.set_player player_index p1).clear_ippatsu_all
        let s2 := { s1 with has_open_call := true, current_player := player_index,
                            last_discard := none }
        let s3 := { s2 with wall := s2.wall.add_dora_indicator }
        let s4 := s3.kan_replacement_draw player_index
        (s4, .ok { success := true, message := player.name ++ " called kan" })
    | none =>
      (s, .ok { success := false, message := "Closed kan not implemented" })

/-- Resolve an added kan (MahjongEngine._perform_added_kan): upgrade the pon,
reveal a dora indicator, and take the replacement draw. -/
def MahjongEngine.perform_added_kan (s : MahjongEngine) (player_index : Nat)
    (target_tile : Tile) : MahjongEngine × Except String ActionResult :=
  match s.get_player player_index with
  | .error e => (s, .error e)
  | .ok player =>
    let p1 := player.upgrade_pon_to_kan target_tile
    let s1 := s.set_player player_index p1
    let s2 := { s1 with has_open_call := true }
    let s3 := { s2 with wall := s2.wall.add_dora_indicator }
    let s4 := s3.kan_replacement_draw player_index
    (s4, .ok { success := true, message := player.name ++ " declared kan" })

/-- Execute a closed or added kan on one's own turn
(MahjongEngine._execute_closed_or_added_kan): an upgradeable pon goes through
the chankan window when any opponent may rob it, otherwise four concealed
copies make a closed kan; both honour the riichi wait restriction. -/
def MahjongEngine.execute_closed_or_added_kan (s : MahjongEngine) (player_index : Nat)
    (tile_str : Option String) : MahjongEngine × Except String ActionResult :=
  if player_index != s.current_player then
    (s, .ok { success := false, message := "Not your turn" })
  else if tile_str == none || tile_str == some "" then
    (s, .ok { success := false, message := "Tile required for kan" })
  else
    match s.get_player player_index with
    | .error e => (s, .error e)
    | .ok player =>
      match player.hand.concealed_tiles.find? (fun t => some t.str == tile_str) with
      | none => (s, .ok { success := false, message := "Tile not found in hand" })
      | some target_tile =>
        if player.can_upgrade_pon_to_kan target_tile then
          if !(s.riichi_kan_allowed player target_tile) then
            (s, .ok { success := false, message := "Riichi kan restriction" })
          else
            let s1 := s.clear_ippatsu_all
            let responders := s1.find_chankan_responders target_tile player_index
            if responders != [] then
              let s2 := { s1 with pending_chankan_tile := some target_tile,
                                  pending_chankan_from := some player_index,
                                  pending_chankan_responders := responders }
              (s2, .ok { success := true,
                         message := "Added kan pending chankan responses",
                         pending_chankan := true, responders := responders })
            else
              s1.perform_added_kan player_index target_tile
        else if player.hand.concealed_tiles.count target_tile ≥ 4 then
          if !(s.riichi_kan_allowed player target_tile) then
            (s, .ok { success := false, message := "Riichi kan restriction" })
          else
            let p1 := player.call_kan target_tile none
            let s1 := (s.set_player player_index p1).clear_ippatsu_all
            let s2 := { s1 with wall := s1.wall.add_dora_indicator }
            let s3 := s2.kan_replacement_draw player_index
            (s3, .ok { success := true, message := player.name ++ " declared kan" })
        else
          (s, .ok { success := false, message := "Cannot declare kan" })

/-- Execute pass (MahjongEngine._execute_pass): a chankan responder who could
still rob enters temporary furiten and leaves the responder set — the last
pass materialises the held kan; outside the window, passing on a ron-eligible
discard sets temporary furiten. -/
def MahjongEngine.execute_pass (s : MahjongEngine) (player_index : Nat) :
    MahjongEngine × Except String ActionResult :=
  match s.get_player player_index with
  | .error e => (s, .error e)
  | .ok player =>
    if s.pending_chankan_tile.isSome &&
        s.pending_chankan_responders.contains player_index then
      let s1 :=
        match s.pending_chankan_tile with
        | some pt =>
          if player.can_call_ron pt then
            s.set_player player_index
              { player with hand := { player.hand with temp_furiten := true } }
          else s
        | none => s
      let s2 := { s1 with pending_chankan_responders :=
        s1.pending_chankan_responders.erase player_index }
      if s2.pending_chankan_responders != [] then
        (s2, .ok { success := true, message := "Passed chankan" })
      else
        let kan_player := s2.pending_chankan_from
        let kan_tile := s2.pending_chankan_tile
        let s3 := s2.clear_pending_chankan
        match kan_player, kan_tile with
        | some kp, some kt => s3.perform_added_kan kp kt
        | _, _ => (s3, .ok { success := false, message := "Invalid chankan state" })
    else
      let s1 :=
        match s.last_discard with
        | some ld =>
          if player_index != s.current_player && player.can_call_ron ld then
            s.set_player player_index
              { player with hand := { player.hand with temp_furiten := true } }
          else s
        | none => s
      (s1, .ok { success := true, message := "Passed" })

/-- Dispatch of MahjongEngine.execute_action before the wall check: the body
of the try block, with a raising handler yielding the error. -/
def MahjongEngine.execute_action_body (s : MahjongEngine) (player_index : Nat)
    (action : String) (kwargs : Params) : MahjongEngine × Except String ActionResult :=
  if action == "discard" then s.execute_discard player_index kwargs.tile
  else if action == "tsumo" then s.execute_tsumo player_index
  else if action == "ron" then s.execute_ron player_index
  else if action == "riichi" then s.execute_riichi player_index kwargs.tile
  else if action == "chii" then s.execute_chii player_index kwargs.sequence
  else if action == "pon" then s.execute_pon player_index
  else if action == "kan" then
    if s.last_discard.isSome then s.execute_kan player_index
    else s.execute_closed_or_added_kan player_index kwargs.tile
  else if action == "pass" then s.execute_pass player_index
  else (s, .ok { success := false, message := "Unknown action: " ++ action })

/-- Execute a player action (MahjongEngine.execute_action): run the handler;
when it returns normally without ending the game and the wall is empty, the
draw settlement replaces the result; a raised exception is caught and turned
into a failure result carrying the exception text. -/
def MahjongEngine.execute_action (s : MahjongEngine) (player_index : Nat)
    (action : String) (kwargs : Params) : MahjongEngine × ActionResult :=
  match s.execute_action_body player_index action kwargs with
  | (s1, .ok result) =>
    if s1.wall.tiles_remaining == 0 && !result.game_ended then s1.handle_draw
    else (s1, result)
  | (s1, .error e) => (s1, { success := false, message := e, game_ended := false })

/-- Initial deal (MahjongEngine._deal_initial_hands): thirteen rounds of one
tile per seat in seat order, one more for the dealer, then phase playing. -/
def MahjongEngine.deal_initial_hands (s : MahjongEngine) : Except String MahjongEngine := do
  let s1 ← (List.range 13).foldlM (fun st _ =>
    (List.range st.players.length).foldlM (fun st2 i => do
      let (t, w) ← st2.wall.draw_tile
      pure (({ st2 with wall := w }).set_player i
        ((st2.players.getD i default_player).draw_tile t))) st) s
  let (t, w) ← s1.wall.draw_tile
  let s2 := ({ s1 with wall := w }).set_player s1.dealer
    ((s1.players.getD s1.dealer default_player).draw_tile t)
  pure { s2 with phase := GamePhase.playing }

/-- Engine construction (MahjongEngine.__init__) with the shuffled wall order
as a parameter: exactly four names, seats winded east/south/west/north, seat
zero the dealer, then the initial deal. -/
def MahjongEngine.init_engine (player_names : List String) (shuffled : List Tile)
    (use_red_fives : Bool) : Except String MahjongEngine :=
  if player_names.length != 4 then .error ("Exactly 4 players required")
  else
    let winds := [Wind.east, Wind.south, Wind.west, Wind.north]
    let players := (List.range player_names.length).map (fun i =>
      ({ name := player_names.getD i "", seat_wind := winds.getD i Wind.east,
         is_dealer := i == 0 } : Player))
    let s : MahjongEngine :=
      { players := players, wall := Wall.fresh shuffled use_red_fives }
    s.deal_initial_hands

/-- Valid actions for a seat (MahjongEngine.get_valid_actions).  The returned
state is the engine after the call: in the 13-tile branch the source draws a
tile into the current player's hand before answering, so the call mutates;
every other branch answers without touching the state.  Index and NoneType
errors of the source propagate as errors. -/
def MahjongEngine.get_valid_actions (s : MahjongEngine) (player_index : Nat) :
    MahjongEngine × Except String (List String) :=
  match s.get_player player_index with
  | .error e => (s, .error e)
  | .ok player =>
    if s.pending_chankan_tile.isSome && s.pending_chankan_from == some player_index then
      (s, .ok [])
    else if s.current_player == player_index then
      let meld_tile_count := player.hand.melds.foldl (fun acc m => acc + m.tiles.length) 0
      let total_tiles := player.hand.concealed_tiles.length + meld_tile_count
      if total_tiles == 14 then
        match (match player.hand.last_drawn_tile with
               | some t => some t
               | none => player.hand.concealed_tiles.getLast?) with
        | none => (s, .error ("list index out of range"))
        | some winning_tile =>
          let a1 := ["discard"]
          let a2 := a1 ++
            (if player.can_tsumo && s.has_yaku_for_win player winning_tile true false then
              ["tsumo"] else [])
          let a3 := a2 ++
            (if s.can_call_closed_kan player_index != [] ||
                s.can_upgrade_pon_to_kan player_index != [] then ["kan"] else [])
          let a4 := a3 ++ (if s.can_declare_riichi player_index then ["riichi"] else [])
          (s, .ok a4)
      else if total_tiles == 13 then
        if s.wall.tiles_remaining > 0 then
          match s.wall.tiles with
          | [] => (s, .ok [])
          | t :: rest =>
            let drawn_player := player.draw_tile t
            let s1 := ({ s with wall := { s.wall with tiles := rest } }).set_player
              player_index drawn_player
            match (match drawn_player.hand.last_drawn_tile with
                   | some tt => some tt
                   | none => drawn_player.hand.concealed_tiles.getLast?) with
            | none => (s1, .error ("list index out of range"))
            | some winning_tile =>
              let a1 := ["discard"]
              let a2 := a1 ++
                (if drawn_player.can_tsumo &&
                    s1.has_yaku_for_win drawn_player winning_tile true false then
                  ["tsumo"] else [])
              let a3 := a2 ++
                (if s1.can_declare_riichi player_index then ["riichi"] else [])
              (s1, .ok a3)
        else (s, .ok [])
      else (s, .ok [])
    else
      if s.pending_chankan_tile.isSome &&
          s.pending_chankan_responders.contains player_index then
        match s.pending_chankan_tile with
        | some pending_tile =>
          let a1 :=
            if player.can_call_ron pending_tile &&
                s.has_yaku_for_win player pending_tile false true then ["ron"] else []
          (s, .ok (a1 ++ ["pass"]))
        | none => (s, .ok ["pass"])
      else
        match s.last_discard with
        | none => (s, .ok [])
        | some last_discard =>
          let a1 :=
            if player.can_call_ron last_discard &&
                s.has_yaku_for_win player last_discard false false then ["ron"] else []
          let a2 := a1 ++ (if player.can_call_pon last_discard then ["pon"] else [])
          let a3 := a2 ++ (if player.can_call_kan last_discard then ["kan"] else [])
          match s.last_discard_player with
          | none => (s, .error ("unsupported operand type for +: NoneType and int"))
          | some ldp =>
            let a4 := a3 ++
              (if (ldp + 1) % 4 == player_index &&
                  player.can_call_chii last_discard true != [] then ["chii"] else [])
            (s, .ok (a4 ++ ["pass"]))

/-- Per-player slice of the public state dictionary
(MahjongEngine.get_game_state). -/
structure PlayerView where
  name : String
  score : Int
  seat_wind : String
  is_dealer : Bool
  is_riichi : Bool
  hand_size : Nat
  melds : Nat
  discards : List String
  is_tenpai : Bool
deriving DecidableEq, Repr

/-- Public state dictionary (MahjongEngine.get_game_state). -/
structure GameStateView where
  phase : String
  current_player : Nat
  dealer : Nat
  round_wind : String
  round_number : Nat
  turn_number : Nat
  wall_tiles_remaining : Nat
  dora_indicators : List String
  last_discard : Option String
  riichi_bets : Nat
  players : List PlayerView
deriving DecidableEq, Repr

/-- Read-only projection of the game state (MahjongEngine.get_game_state);
the source only reads attributes, which the function type records. -/
def MahjongEngine.get_game_state (s : MahjongEngine) : GameStateView :=
  { phase := s.phase.str
    current_player := s.current_player
    dealer := s.dealer
    round_wind := s.round_wind.str
    round_number := s.round_number
    turn_number := s.turn_number
    wall_tiles_remaining := s.wall.tiles_remaining
    dora_indicators := s.wall.dora_indicators.map Tile.str
    last_discard := s.last_discard.map Tile.str
    riichi_bets := s.riichi_bets
    players := s.players.map (fun p =>
      { name := p.name
        score := p.score
        seat_wind := p.seat_wind.str
        is_dealer := p.is_dealer
        is_riichi := p.hand.is_riichi
        hand_size := p.hand.concealed_tiles.length
        melds := p.hand.melds.length
        discards := p.hand.discards.map Tile.str
        is_tenpai := p.is_tenpai }) }

/-- Meld slice of the hand dictionary (MahjongEngine.get_player_hand). -/
structure MeldView where
  tiles : List String
  meld_type : String
  is_open : Bool
deriving DecidableEq, Repr

/-- Hand dictionary (MahjongEngine.get_player_hand). -/
structure HandView where
  concealed_tiles : List String
  melds : List MeldView
  winning_tiles : List String
  is_tenpai : Bool
  can_riichi : Bool
  closed_kan_tiles : List String
  upgrade_kan_tiles : List String
deriving DecidableEq, Repr

/-- Read-only projection of one hand (MahjongEngine.get_player_hand); the
source only reads attributes, which the function type records. -/
def MahjongEngine.get_player_hand (s : MahjongEngine) (player_index : Nat) :
    Except String HandView :=
  match s.get_player player_index with
  | .error e => .error e
  | .ok player =>
    .ok { concealed_tiles := player.hand.concealed_tiles.map Tile.str
          melds := player.hand.melds.map (fun m =>
            { tiles := m.tiles.map Tile.str, meld_type := m.meld_type,
              is_open := m.is_open })
          winning_tiles := player.hand.get_winning_tiles.map Tile.str
          is_tenpai := player.is_tenpai
          can_riichi := s.can_declare_riichi player_index
          closed_kan_tiles := s.can_call_closed_kan player_index
          upgrade_kan_tiles := s.can_upgrade_pon_to_kan player_index }

/-- Tiles physically held by a hand: concealed, melded, and discarded. -/
def Hand.tile_total (h : Hand) : Nat :=
  h.concealed_tiles.length + (h.melds.map (fun m => m.tiles.length)).sum +
    h.discards.length

/-- Tiles attributed to a player. -/
def Player.tile_total (p : Player) : Nat :=
  p.hand.tile_total

/-- Conservation quantity of the spec: live wall plus dead wall plus every
hand (concealed and melds) plus every discard pile. -/
def MahjongEngine.tile_total (s : MahjongEngine) : Nat :=
  s.wall.tiles.length + s.wall.dead_wall.length +
    (s.players.map Player.tile_total).sum

/-- States reachable from a freshly constructed engine (any seat count four
name list, any shuffle of the full tile set, either red-five setting) by any
sequence of execute_action calls. -/
inductive MahjongEngine.Reachable : MahjongEngine → Prop where
  | init (player_names : List String) (shuffled : List Tile) (use_red_fives : Bool)
      (s : MahjongEngine)
      (hperm : shuffled.Perm (Wall.build_wall use_red_fives))
      (hok : MahjongEngine.init_engine player_names shuffled use_red_fives = .ok s) :
      MahjongEngine.Reachable s
  | step (s : MahjongEngine) (player_index : Nat) (action : String) (kwargs : Params) :
      MahjongEngine.Reachable s →
      MahjongEngine.Reachable (s.execute_action player_index action kwargs).1

/-- A call that claims the last discard into a meld and succeeds: pon, chii,
or kan taken on a discard, judged on the handler's own result. -/
def MahjongEngine.claim_step (s : MahjongEngine) (player_index : Nat) (action : String)
    (kwargs : Params) : Prop :=
  (action = "pon" ∨ action = "chii" ∨ (action = "kan" ∧ s.last_discard.isSome = true)) ∧
    ∃ s1 r, s.execute_action_body player_index action kwargs = (s1, .ok r) ∧
      r.success = true

/-- Reachability along traces containing no successful discard-claim. -/
inductive MahjongEngine.ReachableNoClaim : MahjongEngine → Prop where
  | init (player_names : List String) (shuffled : List Tile) (use_red_fives : Bool)
      (s : MahjongEngine)
      (hperm : shuffled.Perm (Wall.build_wall use_red_fives))
      (hok : MahjongEngine.init_engine player_names shuffled use_red_fives = .ok s) :
      MahjongEngine.ReachableNoClaim s
  | step (s : MahjongEngine) (player_index : Nat) (action : String) (kwargs : Params) :
      MahjongEngine.ReachableNoClaim s →
      ¬ MahjongEngine.claim_step s player_index action kwargs →
      MahjongEngine.ReachableNoClaim (s.execute_action player_index action kwargs).1

/-- Shorthand for a sou tile of the given rank. -/
def sou_tile (v : Nat) : Tile := { suit := Suit.sou, value := some v }

/-- Shorthand for a pin tile of the given rank. -/
def pin_tile (v : Nat) : Tile := { suit := Suit.pin, value := some v }

/-- Shorthand for a man tile of the given rank. -/
def man_tile (v : Nat) : Tile := { suit := Suit.man, value := some v }

/-- Shorthand for a wind tile. -/
def wind_tile (w : Wind) : Tile := { suit := Suit.wind, wind := some w }

/-- Shorthand for a dragon tile. -/
def dragon_tile (d : Dragon) : Tile := { suit := Suit.dragon, dragon := some d }

/-- The thirteen concealed tiles of spec scenario A:
111m 222p 333s 4s EEE. -/
def scenario_a_hand : Hand :=
  { concealed_tiles :=
      [man_tile 1, man_tile 1, man_tile 1, pin_tile 2, pin_tile 2, pin_tile 2,
       sou_tile 3, sou_tile 3, sou_tile 3, sou_tile 4,
       wind_tile Wind.east, wind_tile Wind.east, wind_tile Wind.east] }

/-- A hand with one open meld and the matching 10 concealed tiles. -/
def meld_hand : Hand :=
  { concealed_tiles :=
      [man_tile 1, man_tile 1, man_tile 2, man_tile 3, pin_tile 4, pin_tile 5,
       pin_tile 6, sou_tile 7, sou_tile 8, sou_tile 9]
    melds := [{ tiles := [sou_tile 1, sou_tile 1, sou_tile 1], is_open := true,
                called_from := some 2 }] }

/-- An idle seat whose permanent furiten flag blocks ron immediately. -/
def idle_player (nm : String) (w : Wind) : Player :=
  { name := nm, seat_wind := w, hand := { furiten_state := true } }

/-- Seat waiting on a seven-pairs single wait for 3man. -/
def chiitoi_robber : Player :=
  { name := "B", seat_wind := Wind.south,
    hand := { concealed_tiles :=
      [man_tile 1, man_tile 1, man_tile 2, man_tile 2, pin_tile 4, pin_tile 4,
       pin_tile 5, pin_tile 5, sou_tile 6, sou_tile 6, sou_tile 7, sou_tile 7,
       man_tile 3] } }

/-- Seat holding an open pon of 3man plus the fourth 3man in hand. -/
def added_kan_player : Player :=
  { name := "A", seat_wind := Wind.east, is_dealer := true,
    hand := { concealed_tiles := [man_tile 3, pin_tile 1],
              melds := [{ tiles := [man_tile 3, man_tile 3, man_tile 3],
                          is_open := true, called_from := some 2 }] } }

/-- A state on seat zero's turn with an upgradeable pon of 3man where seat one
can rob the added kan. -/
def chankan_state : MahjongEngine :=
  { players := [added_kan_player, chiitoi_robber,
                idle_player ("C") Wind.west, idle_player ("D") Wind.north]
    wall := { tiles := List.replicate 5 (sou_tile 1)
              dead_wall := List.replicate 14 (sou_tile 2)
              dora_indicators := [sou_tile 2], use_red_fives := false }
    phase := GamePhase.playing }

/-- A state whose live wall is empty, with seat zero about to make the final
discard of 3man and seat one waiting on that tile. -/
def drained_discard_state : MahjongEngine :=
  { players := [{ name := "A", seat_wind := Wind.east, is_dealer := true,
                  hand := { concealed_tiles := [man_tile 3] } },
                chiitoi_robber, idle_player ("C") Wind.west,
                idle_player ("D") Wind.north]
    wall := { tiles := [], dead_wall := List.replicate 14 (sou_tile 1)
              dora_indicators := [sou_tile 1], use_red_fives := false }
    phase := GamePhase.playing }

/-- The engine after the final discard of `drained_discard_state`: the wall
check has already replaced the discard result by the draw settlement. -/
def settled_state : MahjongEngine :=
  (drained_discard_state.execute_action 0 ("discard")
    { tile := some (man_tile 3).str }).1

/-- A playing state where the current seat holds thirteen concealed tiles and
the wall still has two tiles, so get_valid_actions draws. -/
def draw_branch_state : MahjongEngine :=
  { players := [{ name := "A", seat_wind := Wind.east, is_dealer := true,
                  hand := { concealed_tiles :=
                    [wind_tile Wind.east, wind_tile Wind.east, wind_tile Wind.east,
                     wind_tile Wind.east, wind_tile Wind.south, wind_tile Wind.south,
                     wind_tile Wind.south, wind_tile Wind.south, wind_tile Wind.west,
                     wind_tile Wind.west, wind_tile Wind.west, wind_tile Wind.west,
                     wind_tile Wind.north] } },
                idle_player ("B") Wind.south, idle_player ("C") Wind.west,
                idle_player ("D") Wind.north]
    wall := { tiles := [sou_tile 1, sou_tile 2]
              dead_wall := List.replicate 14 (sou_tile 3)
              dora_indicators := [sou_tile 3], use_red_fives := false }
    phase := GamePhase.playing }

/-- Seat holding a shanpon wait on east/8sou, with two east tiles for a later
pon of the very tile it passed on. -/
def shanpon_player : Player :=
  { name := "B", seat_wind := Wind.south,
    hand := { concealed_tiles :=
      [man_tile 2, man_tile 3, man_tile 4, pin_tile 5, pin_tile 6, pin_tile 7,
       sou_tile 2, sou_tile 3, sou_tile 4, sou_tile 8, sou_tile 8,
       wind_tile Wind.east, wind_tile Wind.east] } }

/-- A state where seat zero has just discarded east and seat one, who could
ron it, is about to pass. -/
def furiten_pass_state : MahjongEngine :=
  { players := [{ name := "A", seat_wind := Wind.east, is_dealer := true },
                shanpon_player, idle_player ("C") Wind.west,
                idle_player ("D") Wind.north]
    wall := { tiles := [sou_tile 1], dead_wall := List.replicate 14 (sou_tile 9)
              dora_indicators := [sou_tile 9], use_red_fives := false }
    phase := GamePhase.playing, current_player := 0
    last_discard := some (wind_tile Wind.east), last_discard_player := some 0 }

/-- The furiten trace: seat one passes on the ron-eligible east. -/
def furiten_after_pass : MahjongEngine :=
  (furiten_pass_state.execute_action 1 ("pass") {}).1

/-- The furiten trace continued: seat one then pons the same east discard. -/
def furiten_after_pon : MahjongEngine :=
  (furiten_after_pass.execute_action 1 ("pon") {}).1

/-- The furiten trace continued: seat one discards 8sou without ever drawing. -/
def furiten_after_discard : MahjongEngine :=
  (furiten_after_pon.execute_action 1 ("discard")
    { tile := some (sou_tile 8).str }).1

/-- A wall-empty state with four idle seats. -/
def drained_state : MahjongEngine :=
  { players := [idle_player ("A") Wind.east, idle_player ("B") Wind.south,
                idle_player ("C") Wind.west, idle_player ("D") Wind.north]
    wall := { tiles := [], dead_wall := List.replicate 14 (sou_tile 1)
              dora_indicators := [sou_tile 1], use_red_fives := false }
    phase := GamePhase.playing }

/-- Deal rows of the conservation scenario: seat zero collects big wind
triplets plus two norths, seat one the dragons plus two norths, seats two and
three manzu runs. -/
def conservation_deal_rows : List (List Tile) :=
  [[wind_tile Wind.east, wind_tile Wind.east, wind_tile Wind.east, wind_tile Wind.east,
    wind_tile Wind.south, wind_tile Wind.south, wind_tile Wind.south, wind_tile Wind.south,
    wind_tile Wind.west, wind_tile Wind.west, wind_tile Wind.west, wind_tile Wind.west,
    wind_tile Wind.north],
   [wind_tile Wind.north, wind_tile Wind.north, dragon_tile Dragon.green,
    dragon_tile Dragon.green, dragon_tile Dragon.green, dragon_tile Dragon.green,
    dragon_tile Dragon.red, dragon_tile Dragon.red, dragon_tile Dragon.red,
    dragon_tile Dragon.red, dragon_tile Dragon.white, dragon_tile Dragon.white,
    dragon_tile Dragon.white],
   List.replicate 4 (man_tile 1) ++ List.replicate 4 (man_tile 2) ++
     List.replicate 4 (man_tile 3) ++ [man_tile 4],
   List.replicate 4 (man_tile 5) ++ List.replicate 4 (man_tile 6) ++
     List.replicate 4 (man_tile 7) ++ [man_tile 8]]

/-- A full shuffle order that deals `conservation_deal_rows` seat by seat,
then the dealer's north, then the remaining 83 tiles. -/
def conservation_wall : List Tile :=
  ((List.range 13).foldl (fun acc k =>
    acc ++ (conservation_deal_rows.map (fun row => row.getD k (sou_tile 1)))) [])
  ++ [wind_tile Wind.north]
  ++ ([dragon_tile Dragon.white] ++ List.replicate 3 (man_tile 4) ++
      List.replicate 3 (man_tile 8) ++ List.replicate 4 (man_tile 9)
      ++ ((List.range' 1 9).foldl (fun acc v => acc ++ List.replicate 4 (sou_tile v)) [])
      ++ ((List.range' 1 9).foldl (fun acc v => acc ++ List.replicate 4 (pin_tile v)) []))

/-- The junk state used only as the impossible fallback of constructions. -/
def junk_state : MahjongEngine :=
  { players := []
    wall := { tiles := [], dead_wall := [], dora_indicators := [], use_red_fives := false } }

/-- The freshly dealt conservation engine. -/
def conservation_state0 : MahjongEngine :=
  match MahjongEngine.init_engine
      ["A", "B", "C", "D"]
      conservation_wall false with
  | .ok s => s
  | .error _ => junk_state

/-- The conservation trace: dealer discards north, seat one pons it. -/
def conservation_cex_state : MahjongEngine :=
  ((conservation_state0.execute_action 0 ("discard")
      { tile := some (wind_tile Wind.north).str }).1.execute_action 1
    ("pon") {}).1

/-- The draw branch of get_valid_actions: a seat not blocked by the chankan
window, whose turn it is, holding thirteen tiles with a non-empty wall. -/
def gva_draws (s : MahjongEngine) (i : Nat) : Prop :=
  ∃ h : i < s.players.length,
    ¬(s.pending_chankan_tile.isSome = true ∧ s.pending_chankan_from = some i) ∧
    s.current_player = i ∧
    (s.players.get ⟨i, h⟩).hand.concealed_tiles.length +
      (s.players.get ⟨i, h⟩).hand.melds.foldl (fun acc m => acc + m.tiles.length) 0 = 13 ∧
    s.wall.tiles ≠ []

theorem is_complete_hand_of_length_ne (tiles : List Tile) (h : tiles.length ≠ 14) :
    Hand.is_complete_hand tiles = false := by
  simp [Hand.is_complete_hand, h]

/-- C9: a hand holding any meld (under the at-rest tile invariant) has no
winning tiles and is never tenpai, because completeness is only tested on
exactly 14 trial tiles with zero fixed melds. -/
theorem melded_hand_no_winning_tiles :
    ∀ h : Hand, h.melds ≠ [] → h.concealed_tiles.length = 13 - 3 * h.melds.length →
      h.get_winning_tiles = [] ∧ h.is_tenpai = false := by
  intro h hm hlen
  have hk : 1 ≤ h.melds.length := List.length_pos.mpr hm
  have hw : h.get_winning_tiles = [] := by
    unfold Hand.get_winning_tiles
    apply List.filter_eq_nil.mpr
    intro t _
    have hne : (h.concealed_tiles ++ [t]).length ≠ 14 := by
      simp [List.length_append, hlen]; omega
    simp [is_complete_hand_of_length_ne _ hne]
  exact ⟨hw, by simp [Hand.is_tenpai, hw]⟩

/-- Witness for the melded-hand theorem at a one-meld ten-tile hand. -/
theorem melded_hand_no_winning_tiles_witness :
    meld_hand.melds ≠ [] ∧
      meld_hand.concealed_tiles.length = 13 - 3 * meld_hand.melds.length ∧
      meld_hand.get_winning_tiles = [] ∧ meld_hand.is_tenpai = false := by
  have h := melded_hand_no_winning_tiles meld_hand (by decide) (by decide)
  exact ⟨by decide, by decide, h.1, h.2⟩

/-- C4 counterexample: the scenario A hand also waits on 2sou, so the winning
set is not the singleton 4sou. -/
theorem scenario_a_wait_cex :
    scenario_a_hand.get_winning_tiles ≠ [sou_tile 4] ∧
      sou_tile 2 ∈ scenario_a_hand.get_winning_tiles := by decide

/-- C4 amended: the winning tiles of 111m 222p 333s 4s EEE are exactly 2sou,
4sou and 5sou. -/
theorem scenario_a_waits_amended :
    scenario_a_hand.get_winning_tiles = [sou_tile 2, sou_tile 4, sou_tile 5] := by decide

/-- C5 counterexample: a red five and a plain five of the same suit and rank
are not equal, and a hand holding one of each cannot pon a plain five. -/
theorem red_five_equality_cex :
    ({ suit := Suit.sou, value := some 5, is_red := true } : Tile) ≠
        ({ suit := Suit.sou, value := some 5 } : Tile) ∧
      Player.can_call_pon
        { name := "B", seat_wind := Wind.east,
          hand := { concealed_tiles :=
            [{ suit := Suit.sou, value := some 5, is_red := true },
             { suit := Suit.sou, value := some 5 }] } }
        { suit := Suit.sou, value := some 5 } = false := by decide

/-- C5 amended: tile equality is full field-tuple equality — suit, value,
wind, dragon and the red flag all participate. -/
theorem tile_equality_amended :
    ∀ a b : Tile,
      a = b ↔ a.suit = b.suit ∧ a.value = b.value ∧ a.wind = b.wind ∧
        a.dragon = b.dragon ∧ a.is_red = b.is_red := by
  intro a b
  constructor
  · intro h; subst h; exact ⟨rfl, rfl, rfl, rfl, rfl⟩
  · rintro ⟨h1, h2, h3, h4, h5⟩; cases a; cases b; simp_all

theorem round_up_100_ge (x : Nat) : x ≤ Scoring.round_up_100 x := by
  unfold Scoring.round_up_100; omega

theorem round_up_100_mono (x y : Nat) (h : x ≤ y) :
    Scoring.round_up_100 x ≤ Scoring.round_up_100 y := by
  unfold Scoring.round_up_100; omega

theorem round_up_100_le_double (b : Nat) :
    Scoring.round_up_100 (b * 2) ≤ 2 * Scoring.round_up_100 b := by
  unfold Scoring.round_up_100; omega

theorem round_up_100_double_exact (b : Nat) (h : b % 100 = 0) :
    Scoring.round_up_100 (b * 2) = 2 * Scoring.round_up_100 b := by
  unfold Scoring.round_up_100; omega

/-- C7 counterexample: a one-han fu-30 non-dealer tsumo charges the dealer
500 and each non-dealer 300, and 500 is not twice 300. -/
theorem tsumo_split_cex :
    Scoring.calculate_score [{ name := "Riichi", han := 1, closed_only := true }]
        false true none none none none (some 30) 0 =
      .ok (1100, { dealer := some 500, non_dealer := some 300 }) ∧
      (500 : Nat) ≠ 2 * 300 := ⟨rfl, by decide⟩

theorem tsumo_payment_bounds (b h : Nat) :
    (Scoring.round_up_100 b + h * 100 ≤ Scoring.round_up_100 (b * 2) + h * 100) ∧
      (Scoring.round_up_100 (b * 2) + h * 100 ≤
        2 * (Scoring.round_up_100 b + h * 100)) ∧
      (Scoring.round_up_100 (b * 2) + h * 100 =
          2 * (Scoring.round_up_100 b + h * 100) ↔
        h = 0 ∧ (b % 100 = 0 ∨ b % 100 > 50)) := by
  refine ⟨?_, ?_, ?_⟩ <;> (unfold Scoring.round_up_100; omega)

/-- C7 amended: a non-dealer tsumo is paid per the source formula — the
dealer share is round_up_100 of twice the base plus the honba surcharge and
each non-dealer share is round_up_100 of the base plus the surcharge; the
dealer share lies between one and two non-dealer shares, and equals exactly
twice if and only if there is no honba and the base either is a multiple of
100 or leaves a remainder above 50, so that rounding doubles exactly. -/
theorem tsumo_split_amended :
    ∀ (yaku_list : List Yaku) (hand : Option Hand) (wt : Option Tile)
      (sw rw : Option Wind) (fu : Option Nat) (honba : Nat) (sc : Nat)
      (pay : Payments),
      Scoring.calculate_score yaku_list false true hand wt sw rw fu honba =
        .ok (sc, pay) →
      ∃ base d n, pay = { dealer := some d, non_dealer := some n } ∧
        d = Scoring.round_up_100 (base * 2) + honba * 100 ∧
        n = Scoring.round_up_100 base + honba * 100 ∧
        sc = d + n * 2 ∧ n ≤ d ∧ d ≤ 2 * n ∧
        (d = 2 * n ↔ honba = 0 ∧ (base % 100 = 0 ∨ base % 100 > 50)) := by
  intro yl hand wt sw rw fu honba sc pay hok
  unfold Scoring.calculate_score at hok
  by_cases h0 : ((yl.map Yaku.han).sum == 0) = true
  · rw [if_pos h0] at hok; exact absurd hok (by simp)
  · rw [if_neg h0] at hok
    simp only [if_true, if_false, Bool.false_eq_true] at hok
    obtain ⟨hsc, hpay⟩ := Prod.mk.inj (Except.ok.inj hok)
    exact ⟨_, _, _, hpay.symm, rfl, rfl, hsc.symm,
      (tsumo_payment_bounds _ honba).1, (tsumo_payment_bounds _ honba).2.1,
      (tsumo_payment_bounds _ honba).2.2⟩

/-- Witness instantiating the non-dealer tsumo payment description at the
one-han fu-30 honba-0 call. -/
theorem tsumo_split_amended_witness :
    ∃ base d n,
      ({ dealer := some 500, non_dealer := some 300 } : Payments) =
          { dealer := some d, non_dealer := some n } ∧
        d = Scoring.round_up_100 (base * 2) + 0 * 100 ∧
        n = Scoring.round_up_100 base + 0 * 100 ∧
        (1100 : Nat) = d + n * 2 ∧ n ≤ d ∧ d ≤ 2 * n ∧
        (d = 2 * n ↔ (0 : Nat) = 0 ∧ (base % 100 = 0 ∨ base % 100 > 50)) :=
  tsumo_split_amended [{ name := "Riichi", han := 1, closed_only := true }]
    none none none none (some 30) 0 1100
    { dealer := some 500, non_dealer := some 300 } rfl

theorem remove_tile_temp_furiten (h : Hand) (t : Tile) :
    ((h.remove_tile t).2).temp_furiten = h.temp_furiten := by
  unfold Hand.remove_tile; split <;> rfl

theorem discard_tile_temp_furiten (h : Hand) (t : Tile) (b : Bool)
    (hmem : t ∈ h.concealed_tiles) :
    (h.discard_tile t b).temp_furiten = false := by
  unfold Hand.discard_tile Hand.remove_tile
  have hc : h.concealed_tiles.contains t = true := List.elem_eq_true_of_mem hmem
  simp only [hc, if_true]

theorem chii_fold_temp_furiten (tile : Tile) :
    ∀ (seq : List Tile) (h0 : Hand),
      ((seq.foldl (fun h t => if t != tile then (h.remove_tile t).2 else h)
        h0)).temp_furiten = h0.temp_furiten := by
  intro seq
  induction seq with
  | nil => intro h0; rfl
  | cons x xs ih =>
    intro h0
    simp only [List.foldl_cons]
    refine (ih _).trans ?_
    split
    · exact remove_tile_temp_furiten h0 x
    · rfl

theorem getD_set_self (l : List Player) (i : Nat) (p : Player) (h : i < l.length) :
    (l.set i p).getD i default_player = p := by
  induction l generalizing i with
  | nil => simp at h
  | cons x xs ih =>
    cases i with
    | zero => rfl
    | succ n =>
      simp only [List.set]
      exact ih n (by simpa using h)

theorem getD_eq_get (l : List Player) (i : Nat) (h : i < l.length) :
    l.getD i default_player = l.get ⟨i, h⟩ := by
  induction l generalizing i with
  | nil => simp at h
  | cons x xs ih =>
    cases i with
    | zero => rfl
    | succ n => exact ih n (by simpa using h)

/-- C6 amended: temporary furiten is set by passing on a ron-eligible discard
and cleared both by the player's next draw (Hand.add_tile) and by the
player's own successful discard (Hand.discard_tile); meld-forming calls and
plain removals leave it untouched. -/
theorem temp_furiten_amended :
    ∀ (h : Hand) (t : Tile) (m : Meld) (p : Player) (cf : Option Nat)
      (seq : List Tile) (s : MahjongEngine) (i : Nat) (ld : Tile),
      ((h.add_tile t).temp_furiten = false) ∧
      (t ∈ h.concealed_tiles → ∀ b, (h.discard_tile t b).temp_furiten = false) ∧
      ((h.add_meld m).temp_furiten = h.temp_furiten) ∧
      (((h.remove_tile t).2).temp_furiten = h.temp_furiten) ∧
      ((p.call_pon t cf).hand.temp_furiten = p.hand.temp_furiten) ∧
      ((p.call_kan t cf).hand.temp_furiten = p.hand.temp_furiten) ∧
      ((p.call_chii t seq).hand.temp_furiten = p.hand.temp_furiten) ∧
      (s.pending_chankan_tile = none → s.last_discard = some ld →
        i ≠ s.current_player → ∀ hlt : i < s.players.length,
        (s.players.get ⟨i, hlt⟩).can_call_ron ld = true →
        ((s.execute_pass i).1.players.getD i default_player).hand.temp_furiten
          = true) := by
  intro h t m p cf seq s i ld
  refine ⟨rfl, fun hmem b => discard_tile_temp_furiten h t b hmem, rfl,
    remove_tile_temp_furiten h t, ?_, ?_, ?_, ?_⟩
  · simp [Player.call_pon, Hand.add_meld, remove_tile_temp_furiten]
  · cases cf <;> simp [Player.call_kan, Hand.add_meld, remove_tile_temp_furiten]
  · exact chii_fold_temp_furiten t seq p.hand
  · intro h1 h2 h3 hlt h5
    unfold MahjongEngine.execute_pass MahjongEngine.get_player
    rw [dif_pos hlt]
    simp only [h1, h2, Option.isSome_none, Bool.false_and, Bool.false_eq_true,
      if_false]
    have h3b : (i != s.current_player) = true := by simp [h3]
    simp only [h3b, h5, Bool.and_self, Bool.true_and, if_true]
    simp only [MahjongEngine.set_player]
    rw [getD_set_self s.players i _ hlt]

/-- C6 counterexample: after passing on a ron-eligible east, seat one is in
temporary furiten, stays so through its pon of that east, and the flag is
cleared by its own discard although no draw ever happened (the wall is
untouched across the whole trace). -/
theorem temp_furiten_cleared_by_discard_cex :
    (furiten_after_pass.players.getD 1 default_player).hand.temp_furiten = true ∧
      (furiten_after_pon.players.getD 1 default_player).hand.temp_furiten = true ∧
      (furiten_after_discard.players.getD 1 default_player).hand.temp_furiten
        = false ∧
      furiten_after_discard.wall.tiles = furiten_pass_state.wall.tiles := by decide

/-- Witness instantiating the amended temporary-furiten description: a
discard clears the flag, and the concrete pass sets it. -/
theorem temp_furiten_amended_witness :
    (({ concealed_tiles := [sou_tile 8], temp_furiten := true } : Hand).discard_tile
        (sou_tile 8) false).temp_furiten = false ∧
      ((furiten_pass_state.execute_pass 1).1.players.getD 1
        default_player).hand.temp_furiten = true := by
  have h := temp_furiten_amended
    { concealed_tiles := [sou_tile 8], temp_furiten := true } (sou_tile 8)
    { tiles := [] } default_player none [] furiten_pass_state 1
    (wind_tile Wind.east)
  exact ⟨h.2.1 (by decide) false,
    h.2.2.2.2.2.2.2 (by decide) (by decide) (by decide) (by decide) (by decide)⟩

/-- C8 counterexample: with an empty wall even an unknown action returns the
draw settlement with success true, not a failure result. -/
theorem failure_result_cex :
    (drained_state.execute_action 0 ("frobnicate") {}).2.success = true ∧
      (drained_state.execute_action 0 ("frobnicate") {}).2.message =
        "Game drawn - wall empty" := by decide

/-- C8 amended: execute_action never raises — a handler exception becomes a
failure result carrying its text — and with a non-empty wall the recoverable
failures answer success false: an unknown action names itself and an
out-of-turn discard reports the turn error. -/
theorem execute_action_catches_amended :
    ∀ (s s1 : MahjongEngine) (i : Nat) (a : String) (k : Params) (e : String),
      (s.execute_action_body i a k = (s1, .error e) →
        s.execute_action i a k =
          (s1, { success := false, message := e, game_ended := false })) ∧
      (s.wall.tiles ≠ [] →
        a ∉ (["discard", "tsumo", "ron", "riichi", "chii", "pon", "kan",
          "pass"] : List String) →
        s.execute_action i a k =
          (s, { success := false, message := "Unknown action: " ++ a,
                game_ended := false })) ∧
      (s.wall.tiles ≠ [] → a = "discard" → i ≠ s.current_player →
        s.execute_action i a k =
          (s, { success := false, message := "Not your turn",
                game_ended := false })) := by
  intro s s1 i a k e
  have hwb : s.wall.tiles ≠ [] → (s.wall.tiles.length == 0) = false := by
    intro hwall
    simp [List.length_eq_zero, hwall]
  refine ⟨?_, ?_, ?_⟩
  · intro hbody
    unfold MahjongEngine.execute_action
    rw [hbody]
  · intro hwall hmem
    simp only [List.mem_cons, not_or] at hmem
    obtain ⟨n1, n2, n3, n4, n5, n6, n7, n8, _⟩ := hmem
    unfold MahjongEngine.execute_action MahjongEngine.execute_action_body
    simp only [beq_iff_eq, n1, n2, n3, n4, n5, n6, n7, n8, if_false,
      Wall.tiles_remaining, hwb hwall, Bool.false_and, Bool.false_eq_true]
  · intro hwall ha hcur
    subst ha
    unfold MahjongEngine.execute_action MahjongEngine.execute_action_body
      MahjongEngine.execute_discard
    have hc : (i != s.current_player) = true := by simp [hcur]
    simp only [beq_self_eq_true, if_true, hc, Wall.tiles_remaining, hwb hwall,
      Bool.false_and, if_false, Bool.false_eq_true]

/-- Witness for the execute_action failure description: the error catch at a
raising chii call, the unknown action, and the out-of-turn discard, all on a
concrete one-tile-wall state. -/
theorem execute_action_catches_amended_witness :
    (furiten_pass_state.execute_action 0 ("frobnicate") {}) =
        (furiten_pass_state,
          { success := false, message := "Unknown action: frobnicate",
            game_ended := false }) ∧
      (furiten_pass_state.execute_action 1 ("discard") {}) =
        (furiten_pass_state,
          { success := false, message := "Not your turn", game_ended := false }) := by
  have h1 := (execute_action_catches_amended furiten_pass_state furiten_pass_state 0
    ("frobnicate") {} ("")).2.1 (by decide) (by decide)
  have h2 := (execute_action_catches_amended furiten_pass_state furiten_pass_state 1
    ("discard") {} ("")).2.2 (by decide) rfl (by decide)
  exact ⟨h1, h2⟩

/-- C10 amended: whenever the handler returns normally with the game not
ended and the wall empty afterwards, execute_action discards that result and
returns the draw settlement — phase ended, honba incremented, success and
game_ended true. -/
theorem wall_empty_settlement_amended :
    ∀ (s s1 : MahjongEngine) (i : Nat) (a : String) (k : Params)
      (r : ActionResult),
      s.execute_action_body i a k = (s1, .ok r) → r.game_ended = false →
      s1.wall.tiles = [] →
      s.execute_action i a k = s1.handle_draw ∧
        (s1.handle_draw).2.game_ended = true ∧ (s1.handle_draw).2.success = true ∧
        (s1.handle_draw).2.message = "Game drawn - wall empty" ∧
        (s1.handle_draw).1.phase = GamePhase.ended ∧
        (s1.handle_draw).1.honba = s1.honba + 1 := by
  intro s s1 i a k r hbody hge hw
  refine ⟨?_, rfl, rfl, rfl, ?_, ?_⟩
  · unfold MahjongEngine.execute_action
    rw [hbody]
    simp [Wall.tiles_remaining, hw, hge]
  · simp only [MahjongEngine.handle_draw]
    split <;> rfl
  · simp only [MahjongEngine.handle_draw]
    split <;> rfl

/-- Witness for the settlement description at a concrete empty-wall discard
attempt. -/
theorem wall_empty_settlement_amended_witness :
    drained_state.execute_action 0 ("discard") { tile := some (sou_tile 1).str } =
        drained_state.handle_draw ∧
      (drained_state.handle_draw).2.game_ended = true ∧
      (drained_state.handle_draw).1.phase = GamePhase.ended ∧
      (drained_state.handle_draw).1.honba = drained_state.honba + 1 := by
  have h := wall_empty_settlement_amended drained_state drained_state 0 ("discard")
    { tile := some (sou_tile 1).str }
    { success := false, message := "Tile not found in hand" } rfl rfl rfl
  exact ⟨h.1, h.2.1, h.2.2.2.2.1, h.2.2.2.2.2⟩

/-- C10 counterexample: the wall-empty settlement does replace the final
discard's result, yet the discard stays recorded and phase is ignored, so the
waiting opponent's ron is still accepted afterwards. -/
theorem wall_empty_ron_cex :
    (drained_discard_state.execute_action 0 ("discard")
        { tile := some (man_tile 3).str }).2.game_ended = true ∧
      (drained_discard_state.execute_action 0 ("discard")
        { tile := some (man_tile 3).str }).2.message = "Game drawn - wall empty" ∧
      (settled_state.execute_action 1 ("ron") {}).2.success = true ∧
      (settled_state.execute_action 1 ("ron") {}).2.game_ended = true := by decide

/-- C3 counterexample: get_valid_actions mutates the state — on the current
seat's 13-tile turn it draws from the wall. -/
theorem projections_mutate_cex :
    (draw_branch_state.get_valid_actions 0).1 ≠ draw_branch_state ∧
      (draw_branch_state.get_valid_actions 0).1.wall.tiles.length + 1 =
        draw_branch_state.wall.tiles.length := by decide

/-- C3 amended: get_game_state and get_player_hand are read-only (their
embeddings take no state output), and get_valid_actions leaves the state
unchanged except in exactly one situation — queried for the current player
holding 13 tiles with a non-empty wall and no chankan block — where it pops
the wall head into that player's hand. -/
theorem projections_frame_amended :
    ∀ (s : MahjongEngine) (i : Nat),
      (¬ gva_draws s i → (s.get_valid_actions i).1 = s) ∧
      (gva_draws s i → ∀ t rest, s.wall.tiles = t :: rest →
        (s.get_valid_actions i).1 =
          ({ s with wall := { s.wall with tiles := rest } }).set_player i
            ((s.players.getD i default_player).draw_tile t)) := by
  intro s i
  constructor
  · intro hnot
    by_cases hi : i < s.players.length
    · unfold MahjongEngine.get_valid_actions MahjongEngine.get_player
      rw [dif_pos hi]
      dsimp only
      by_cases hp : (s.pending_chankan_tile.isSome &&
          s.pending_chankan_from == some i) = true
      · simp only [hp, eq_self_iff_true, if_true]
      · simp only [Bool.not_eq_true] at hp
        simp only [hp, Bool.false_eq_true, if_false]
        by_cases hc : (s.current_player == i) = true
        · simp only [hc, eq_self_iff_true, if_true]
          by_cases h14 : (((s.players.get ⟨i, hi⟩).hand.concealed_tiles.length +
              List.foldl (fun acc m => acc + m.tiles.length) 0
                (s.players.get ⟨i, hi⟩).hand.melds) == 14) = true
          · simp only [h14, eq_self_iff_true, if_true]
            rcases hm : (match (s.players.get ⟨i, hi⟩).hand.last_drawn_tile with
              | some t => some t
              | none => (s.players.get ⟨i, hi⟩).hand.concealed_tiles.getLast?) with
              _ | wt <;> simp only [hm] <;> rfl
          · simp only [Bool.not_eq_true] at h14
            simp only [h14, Bool.false_eq_true, if_false]
            by_cases h13 : (((s.players.get ⟨i, hi⟩).hand.concealed_tiles.length +
                List.foldl (fun acc m => acc + m.tiles.length) 0
                  (s.players.get ⟨i, hi⟩).hand.melds) == 13) = true
            · simp only [h13, eq_self_iff_true, if_true]
              by_cases hw : s.wall.tiles_remaining > 0
              · exfalso
                apply hnot
                refine ⟨hi, ?_, ?_, ?_, ?_⟩
                · intro hcontra
                  simp [hcontra.1, hcontra.2] at hp
                · simpa using (beq_iff_eq.mp hc).symm.symm
                · simpa using h13
                · intro hnil
                  rw [Wall.tiles_remaining, hnil] at hw
                  simp at hw
              · rw [if_neg hw]
            · simp only [Bool.not_eq_true] at h13
              simp only [h13, Bool.false_eq_true, if_false]
        · simp only [Bool.not_eq_true] at hc
          simp only [hc, Bool.false_eq_true, if_false]
          by_cases hr : (s.pending_chankan_tile.isSome &&
              s.pending_chankan_responders.contains i) = true
          · simp only [hr, eq_self_iff_true, if_true]
            rcases hpt : s.pending_chankan_tile with _ | pt <;> simp only [hpt] <;> rfl
          · simp only [Bool.not_eq_true] at hr
            simp only [hr, Bool.false_eq_true, if_false]
            rcases hld : s.last_discard with _ | ld
            · rfl
            · simp only [hld]
              rcases hldp : s.last_discard_player with _ | ldp <;>
                simp only [hldp] <;> rfl
    · unfold MahjongEngine.get_valid_actions MahjongEngine.get_player
      rw [dif_neg hi]
  · rintro ⟨hi, hp, hcur, htot, hwne⟩ t rest hw
    unfold MahjongEngine.get_valid_actions MahjongEngine.get_player
    rw [dif_pos hi]
    dsimp only
    have hpb : (s.pending_chankan_tile.isSome && s.pending_chankan_from == some i)
        = false := by
      rcases hb : s.pending_chankan_tile.isSome with _ | _
      · simp
      · rcases hb2 : (s.pending_chankan_from == some i) with _ | _
        · simp [hb2]
        · exact absurd ⟨hb, by simpa using hb2⟩ hp
    simp only [hpb, Bool.false_eq_true, if_false]
    have hcb : (s.current_player == i) = true := by simp [hcur]
    simp only [hcb, eq_self_iff_true, if_true]
    have h14 : (((s.players.get ⟨i, hi⟩).hand.concealed_tiles.length +
        List.foldl (fun acc m => acc + m.tiles.length) 0
          (s.players.get ⟨i, hi⟩).hand.melds) == 14) = false := by
      simp only [beq_eq_false_iff_ne, ne_eq]
      omega
    simp only [h14, Bool.false_eq_true, if_false]
    have h13 : (((s.players.get ⟨i, hi⟩).hand.concealed_tiles.length +
        List.foldl (fun acc m => acc + m.tiles.length) 0
          (s.players.get ⟨i, hi⟩).hand.melds) == 13) = true := by
      simp only [beq_iff_eq]
      omega
    simp only [h13, eq_self_iff_true, if_true]
    have hwpos : s.wall.tiles_remaining > 0 := by
      rw [Wall.tiles_remaining, hw]
      simp
    rw [if_pos hwpos, hw]
    dsimp only [Player.draw_tile, Hand.add_tile]
    rw [getD_eq_get s.players i hi]

/-- Witness for the C3 frame theorem: seat 1 is not drawing and the state is
unchanged; seat 0 is drawing and the state pops the wall head into its hand. -/
theorem projections_frame_amended_witness :
    (¬ gva_draws draw_branch_state 1 ∧
      (draw_branch_state.get_valid_actions 1).1 = draw_branch_state) ∧
    (gva_draws draw_branch_state 0 ∧
      (draw_branch_state.get_valid_actions 0).1 =
        ({ draw_branch_state with
            wall := { draw_branch_state.wall with tiles := [sou_tile 2] } }).set_player 0
          ((draw_branch_state.players.getD 0 default_player).draw_tile (sou_tile 1))) := by
  have hn : ¬ gva_draws draw_branch_state 1 := by
    rintro ⟨h, _, hc, _⟩
    exact absurd hc (by decide)
  have hg : gva_draws draw_branch_state 0 :=
    ⟨by decide, by decide, rfl, by decide, by decide⟩
  exact ⟨⟨hn, (projections_frame_amended draw_branch_state 1).1 hn⟩,
         ⟨hg, (projections_frame_amended draw_branch_state 0).2 hg
            (sou_tile 1) [sou_tile 2] rfl⟩⟩

theorem length_insert_by_key (x : Tile) (l : List Tile) :
    (insert_by_key x l).length = l.length + 1 := by
  induction l with
  | nil => rfl
  | cons y ys ih =>
    unfold insert_by_key
    split <;> simp [ih]

theorem length_sort_tiles_aux (l acc : List Tile) :
    (l.foldl (fun a x => insert_by_key x a) acc).length = acc.length + l.length := by
  induction l generalizing acc with
  | nil => simp
  | cons y ys ih =>
    simp only [List.foldl_cons, ih, length_insert_by_key, List.length_cons]
    omega

theorem length_sort_tiles (l : List Tile) : (sort_tiles l).length = l.length := by
  unfold sort_tiles
  rw [length_sort_tiles_aux]
  simp

theorem tile_total_add_tile (h : Hand) (t : Tile) :
    (h.add_tile t).tile_total = h.tile_total + 1 := by
  unfold Hand.add_tile Hand.tile_total
  simp [length_sort_tiles]
  omega

theorem tile_total_remove_tile_ge (h : Hand) (t : Tile) :
    h.tile_total ≤ ((h.remove_tile t).2).tile_total + 1 := by
  unfold Hand.remove_tile Hand.tile_total
  split
  · simp only
    by_cases hm : t ∈ h.concealed_tiles
    · have h1 := List.length_erase_of_mem hm
      have h2 := List.length_pos.mpr (List.ne_nil_of_mem hm)
      omega
    · rw [List.erase_of_not_mem hm]
      omega
  · dsimp only
    omega

theorem tile_total_remove_tile_le (h : Hand) (t : Tile) :
    ((h.remove_tile t).2).tile_total ≤ h.tile_total := by
  unfold Hand.remove_tile Hand.tile_total
  split
  · simp only
    by_cases hm : t ∈ h.concealed_tiles
    · have h1 := List.length_erase_of_mem hm
      have h2 := List.length_pos.mpr (List.ne_nil_of_mem hm)
      omega
    · rw [List.erase_of_not_mem hm]
  · dsimp only
    omega

theorem tile_total_remove_tile_of_count (h : Hand) (t : Tile)
    (hc : 1 ≤ h.concealed_tiles.count t) :
    ((h.remove_tile t).2).tile_total + 1 = h.tile_total ∧
      ((h.remove_tile t).2).concealed_tiles.count t + 1 = h.concealed_tiles.count t ∧
      ((h.remove_tile t).2).melds = h.melds ∧
      ((h.remove_tile t).2).discards = h.discards := by
  have hmem : t ∈ h.concealed_tiles := List.count_pos_iff_mem.mp hc
  have hcon : h.concealed_tiles.contains t = true := by
    simpa [List.elem_iff] using hmem
  unfold Hand.remove_tile
  rw [if_pos hcon]
  refine ⟨?_, ?_, rfl, rfl⟩
  · unfold Hand.tile_total
    simp only
    have := List.length_erase_of_mem hmem
    have := List.length_pos.mpr (List.ne_nil_of_mem hmem)
    omega
  · rw [List.count_erase_self]
    omega

theorem tile_total_add_meld (h : Hand) (m : Meld) :
    (h.add_meld m).tile_total = h.tile_total + m.tiles.length := by
  unfold Hand.add_meld Hand.tile_total
  simp
  omega

theorem tile_total_call_pon_ge (p : Player) (t : Tile) (o : Option Nat) :
    p.tile_total + 1 ≤ (p.call_pon t o).tile_total := by
  unfold Player.call_pon Player.tile_total
  dsimp only
  rw [tile_total_add_meld]
  have h1 := tile_total_remove_tile_ge p.hand t
  have h2 := tile_total_remove_tile_ge (p.hand.remove_tile t).2 t
  simp only [List.length_cons, List.length_nil]
  omega

theorem tile_total_call_kan_open_ge (p : Player) (t : Tile) (d : Nat) :
    p.tile_total + 1 ≤ (p.call_kan t (some d)).tile_total := by
  unfold Player.call_kan Player.tile_total
  dsimp only
  rw [tile_total_add_meld]
  have h1 := tile_total_remove_tile_ge p.hand t
  have h2 := tile_total_remove_tile_ge (p.hand.remove_tile t).2 t
  have h3 := tile_total_remove_tile_ge ((p.hand.remove_tile t).2.remove_tile t).2 t
  simp only [List.length_cons, List.length_nil]
  omega

theorem tile_total_call_kan_closed (p : Player) (t : Tile)
    (hc : 4 ≤ p.hand.concealed_tiles.count t) :
    (p.call_kan t none).tile_total = p.tile_total := by
  unfold Player.call_kan Player.tile_total
  dsimp only
  rw [tile_total_add_meld]
  obtain ⟨e1, c1, _, _⟩ := tile_total_remove_tile_of_count p.hand t (by omega)
  obtain ⟨e2, c2, _, _⟩ :=
    tile_total_remove_tile_of_count (p.hand.remove_tile t).2 t (by omega)
  obtain ⟨e3, c3, _, _⟩ :=
    tile_total_remove_tile_of_count ((p.hand.remove_tile t).2.remove_tile t).2 t (by omega)
  obtain ⟨e4, _, _, _⟩ :=
    tile_total_remove_tile_of_count
      (((p.hand.remove_tile t).2.remove_tile t).2.remove_tile t).2 t (by omega)
  simp only [List.length_cons, List.length_nil]
  omega

theorem fold_remove_tile_total_ge (tile : Tile) (l : List Tile) (h : Hand) :
    h.tile_total ≤
      (l.foldl (fun hh t => if t != tile then (hh.remove_tile t).2 else hh) h).tile_total
        + l.length := by
  induction l generalizing h with
  | nil => simp
  | cons x xs ih =>
    simp only [List.foldl_cons, List.length_cons]
    have hstep : h.tile_total ≤
        (if x != tile then (h.remove_tile x).2 else h).tile_total + 1 := by
      split
      · exact tile_total_remove_tile_ge h x
      · omega
    have := ih (if x != tile then (h.remove_tile x).2 else h)
    omega

theorem length_insert_by_value (x : Tile) (l : List Tile) :
    (insert_by_value x l).length = l.length + 1 := by
  induction l with
  | nil => rfl
  | cons y ys ih =>
    unfold insert_by_value
    split <;> simp [ih]

theorem length_sort_by_value_aux (l acc : List Tile) :
    (l.foldl (fun a x => insert_by_value x a) acc).length = acc.length + l.length := by
  induction l generalizing acc with
  | nil => simp
  | cons y ys ih =>
    simp only [List.foldl_cons, ih, length_insert_by_value, List.length_cons]
    omega

theorem length_sort_by_value (l : List Tile) : (sort_by_value l).length = l.length := by
  unfold sort_by_value
  rw [length_sort_by_value_aux]
  simp

theorem tile_total_call_chii_ge (p : Player) (t : Tile) (seq : List Tile)
    (hlen : seq.length = 3) :
    p.tile_total ≤ (p.call_chii t seq).tile_total := by
  unfold Player.call_chii Player.tile_total
  dsimp only
  rw [tile_total_add_meld]
  dsimp only
  rw [hlen]
  have := fold_remove_tile_total_ge t seq p.hand
  omega

theorem upgrade_meld_list_sum (ms : List Meld) (t : Tile)
    (h : ms.any (fun m => m.is_triplet && m.is_open && m.tiles.head? == some t) = true) :
    ((upgrade_meld_list ms t).map (fun m => m.tiles.length)).sum
      = (ms.map (fun m => m.tiles.length)).sum + 1 := by
  induction ms with
  | nil => simp at h
  | cons m rest ih =>
    unfold upgrade_meld_list
    by_cases hm : (m.is_triplet && m.is_open && m.tiles.head? == some t) = true
    · rw [if_pos hm]
      simp
      omega
    · rw [if_neg hm]
      simp only [List.any_cons, Bool.or_eq_true] at h
      rcases h with h | h
      · exact absurd h hm
      · simp only [List.map_cons, List.sum_cons, ih h]
        omega

theorem tile_total_upgrade_pon_to_kan (p : Player) (t : Tile) :
    (p.upgrade_pon_to_kan t).tile_total = p.tile_total := by
  unfold Player.upgrade_pon_to_kan
  split
  · rename_i hcan
    unfold Player.can_upgrade_pon_to_kan at hcan
    rw [Bool.and_eq_true] at hcan
    have hmem : t ∈ p.hand.concealed_tiles := by
      simpa [List.elem_iff] using hcan.2
    unfold Player.tile_total Hand.tile_total
    dsimp only
    rw [upgrade_meld_list_sum p.hand.melds t hcan.1]
    have h1 := List.length_erase_of_mem hmem
    have h2 := List.length_pos.mpr (List.ne_nil_of_mem hmem)
    omega
  · rfl

theorem tile_total_add_score (p : Player) (x : Int) :
    (p.add_score x).tile_total = p.tile_total := rfl

theorem sum_map_tile_total_set (l : List Player) (i : Nat) (p : Player)
    (h : i < l.length) :
    ((l.set i p).map Player.tile_total).sum + (l.get ⟨i, h⟩).tile_total
      = (l.map Player.tile_total).sum + p.tile_total := by
  induction l generalizing i with
  | nil => simp at h
  | cons q qs ih =>
    cases i with
    | zero => simp [List.set]; omega
    | succ j =>
      simp only [List.set, List.map_cons, List.sum_cons, List.get]
      have := ih j (by simpa using h)
      omega

theorem set_out_of_range (l : List Player) (i : Nat) (p : Player)
    (h : l.length ≤ i) : l.set i p = l := by
  induction l generalizing i with
  | nil => simp
  | cons q qs ih =>
    cases i with
    | zero => simp at h
    | succ j => simp [List.set, ih j (by simpa using h)]

theorem set_player_modify_tile_total (s : MahjongEngine) (i : Nat) (g : Player → Player)
    (hg : ∀ q, (g q).tile_total = q.tile_total) :
    (s.set_player i (g (s.players.getD i default_player))).tile_total = s.tile_total := by
  by_cases h : i < s.players.length
  · unfold MahjongEngine.set_player MahjongEngine.tile_total
    dsimp only
    rw [getD_eq_get s.players i h]
    have hset := sum_map_tile_total_set s.players i
      (g (s.players.get ⟨i, h⟩)) h
    rw [hg] at hset
    omega
  · unfold MahjongEngine.set_player MahjongEngine.tile_total
    rw [set_out_of_range s.players i _ (by omega)]

theorem set_player_draw_tile_total (s : MahjongEngine) (i : Nat) (t : Tile) (rest : List Tile)
    (hi : i < s.players.length) (ht : s.wall.tiles = t :: rest) :
    (({ s with wall := { s.wall with tiles := rest } }).set_player i
      ((s.players.getD i default_player).draw_tile t)).tile_total = s.tile_total := by
  unfold MahjongEngine.set_player MahjongEngine.tile_total
  dsimp only
  rw [getD_eq_get s.players i hi]
  have hset := sum_map_tile_total_set s.players i
    ((s.players.get ⟨i, hi⟩).draw_tile t) hi
  have hdt : ((s.players.get ⟨i, hi⟩).draw_tile t).tile_total
      = (s.players.get ⟨i, hi⟩).tile_total + 1 := by
    unfold Player.draw_tile Player.tile_total
    exact tile_total_add_tile _ t
  rw [hdt] at hset
  have hlen : s.wall.tiles.length = rest.length + 1 := by rw [ht]; simp
  omega

theorem sum_map_tile_total_map (l : List Player) (g : Player → Player)
    (hg : ∀ q, (g q).tile_total = q.tile_total) :
    ((l.map g).map Player.tile_total).sum = (l.map Player.tile_total).sum := by
  induction l with
  | nil => rfl
  | cons q qs ih => simp only [List.map_cons, List.sum_cons, ih, hg]

theorem sum_map_tile_total_enum_from_map (l : List Player) (n : Nat)
    (f : Nat × Player → Player)
    (hf : ∀ pr, (f pr).tile_total = pr.2.tile_total) :
    (((l.enumFrom n).map f).map Player.tile_total).sum = (l.map Player.tile_total).sum := by
  induction l generalizing n with
  | nil => rfl
  | cons q qs ih => simp only [List.enumFrom, List.map_cons, List.sum_cons, ih, hf]

theorem get_player_ok (s : MahjongEngine) (i : Nat) (p : Player)
    (h : s.get_player i = .ok p) :
    ∃ hi : i < s.players.length, p = s.players.get ⟨i, hi⟩ := by
  unfold MahjongEngine.get_player at h
  split at h
  · exact ⟨‹_›, (Except.ok.inj h).symm⟩
  · exact absurd h (by simp)

theorem tile_total_set_player (s : MahjongEngine) (i : Nat) (p : Player)
    (hi : i < s.players.length) (hp : p.tile_total = (s.players.get ⟨i, hi⟩).tile_total) :
    (s.set_player i p).tile_total = s.tile_total := by
  unfold MahjongEngine.set_player MahjongEngine.tile_total
  dsimp only
  have hset := sum_map_tile_total_set s.players i p hi
  rw [hp] at hset
  omega

theorem tile_total_clear_ippatsu_all (s : MahjongEngine) :
    s.clear_ippatsu_all.tile_total = s.tile_total := by
  unfold MahjongEngine.clear_ippatsu_all MahjongEngine.tile_total
  dsimp only
  rw [sum_map_tile_total_map]
  intro q
  rfl

theorem tile_total_clear_pending_chankan (s : MahjongEngine) :
    s.clear_pending_chankan.tile_total = s.tile_total := rfl

theorem tile_total_handle_draw (s : MahjongEngine) :
    s.handle_draw.1.tile_total = s.tile_total := by
  unfold MahjongEngine.handle_draw
  dsimp only
  split
  · unfold MahjongEngine.tile_total
    dsimp only
    rw [List.enum]
    rw [sum_map_tile_total_enum_from_map]
    · rfl
    · intro pr
      split <;> rfl
  · exact tile_total_clear_pending_chankan s

theorem foldl_tile_total {α : Type} (l : List α) (f : MahjongEngine → α → MahjongEngine)
    (hf : ∀ st a, (f st a).tile_total = st.tile_total) (s : MahjongEngine) :
    (l.foldl f s).tile_total = s.tile_total := by
  induction l generalizing s with
  | nil => rfl
  | cons a as ih => rw [List.foldl_cons, ih, hf]

theorem tile_total_apply_tsumo_payments (s : MahjongEngine) (w sc : Nat) (pay : Payments) :
    (s.apply_tsumo_payments w sc pay).tile_total = s.tile_total := by
  unfold MahjongEngine.apply_tsumo_payments
  dsimp only
  have hfinal : ∀ (s1 : MahjongEngine),
      ({ s1.set_player w ((s1.players.getD w default_player).add_score
          ((s1.riichi_bets : Int) * 1000)) with riichi_bets := 0 } : MahjongEngine).tile_total
        = s1.tile_total := by
    intro s1
    have := set_player_modify_tile_total s1 w
      (fun q => q.add_score ((s1.riichi_bets : Int) * 1000)) (fun q => rfl)
    exact this
  split
  · rw [hfinal]
    apply foldl_tile_total
    intro st i
    split
    · rfl
    · have h1 := set_player_modify_tile_total st i
        (fun q => q.add_score (-((pay.all.getD 0 : Nat) : Int))) (fun q => rfl)
      have h2 := set_player_modify_tile_total
        (st.set_player i ((st.players.getD i default_player).add_score
          (-((pay.all.getD 0 : Nat) : Int)))) w
        (fun q => q.add_score (((pay.all.getD 0 : Nat) : Int))) (fun q => rfl)
      rw [h2, h1]
  · rw [hfinal]
    apply foldl_tile_total
    intro st i
    split
    · rfl
    · have h1 := set_player_modify_tile_total st i
        (fun q => q.add_score (-(if (st.players.getD i default_player).is_dealer
          then ((pay.dealer.getD 0 : Nat) : Int)
          else ((pay.non_dealer.getD 0 : Nat) : Int)))) (fun q => rfl)
      have h2 := set_player_modify_tile_total
        (st.set_player i ((st.players.getD i default_player).add_score
          (-(if (st.players.getD i default_player).is_dealer
            then ((pay.dealer.getD 0 : Nat) : Int)
            else ((pay.non_dealer.getD 0 : Nat) : Int))))) w
        (fun q => q.add_score ((if (st.players.getD i default_player).is_dealer
          then ((pay.dealer.getD 0 : Nat) : Int)
          else ((pay.non_dealer.getD 0 : Nat) : Int)))) (fun q => rfl)
      rw [h2, h1]

theorem tile_total_update_honba (s : MahjongEngine) (w : Nat) :
    (s.update_honba_after_win w).tile_total = s.tile_total := by
  unfold MahjongEngine.update_honba_after_win
  split <;> rfl

theorem tile_total_kan_replacement_draw (s : MahjongEngine) (i : Nat)
    (hi : i < s.players.length) :
    (s.kan_replacement_draw i).tile_total = s.tile_total := by
  unfold MahjongEngine.kan_replacement_draw
  dsimp only
  split
  · rename_i hw
    rcases ht : s.wall.tiles with _ | ⟨t, rest⟩
    · rfl
    · dsimp only
      have := set_player_draw_tile_total
        ({ s with last_action_was_kan_draw := false }) i t rest hi ht
      simpa using this
  · rfl

theorem tile_total_perform_added_kan (s : MahjongEngine) (i : Nat) (t : Tile) :
    (s.perform_added_kan i t).1.tile_total = s.tile_total := by
  unfold MahjongEngine.perform_added_kan
  rcases hgp : s.get_player i with e | player
  · rfl
  · dsimp only
    obtain ⟨hi, hp⟩ := get_player_ok s i player hgp
    have h1 : (s.set_player i (player.upgrade_pon_to_kan t)).tile_total = s.tile_total := by
      apply tile_total_set_player s i _ hi
      rw [tile_total_upgrade_pon_to_kan, hp]
    have hkey : ∀ (s2 : MahjongEngine), i < s2.players.length →
        ((({ s2 with wall := s2.wall.add_dora_indicator } : MahjongEngine)).kan_replacement_draw
          i).tile_total = s2.tile_total := by
      intro s2 hi2
      rw [tile_total_kan_replacement_draw _ i (by exact hi2)]
      unfold MahjongEngine.tile_total Wall.add_dora_indicator
      dsimp only
      split <;> rfl
    have hi2 : i < ({ (s.set_player i (player.upgrade_pon_to_kan t)) with
        has_open_call := true } : MahjongEngine).players.length := by
      simpa [MahjongEngine.set_player] using hi
    exact (hkey _ hi2).trans h1

theorem tile_total_hand_discard (h : Hand) (t : Tile) (b : Bool)
    (hc : h.concealed_tiles.contains t = true) :
    (h.discard_tile t b).tile_total = h.tile_total := by
  have hmem : t ∈ h.concealed_tiles := by simpa [List.elem_iff] using hc
  unfold Hand.discard_tile Hand.remove_tile
  rw [if_pos hc]
  dsimp only
  unfold Hand.tile_total
  have h1 := List.length_erase_of_mem hmem
  have h2 := List.length_pos.mpr (List.ne_nil_of_mem hmem)
  split <;> dsimp only <;> simp <;> omega

theorem tile_total_check_furiten (q : Player) :
    ({ q with hand := (q.hand.check_furiten).2 } : Player).tile_total = q.tile_total := by
  unfold Hand.check_furiten
  dsimp only
  split <;> rfl

theorem tile_total_eq_of_parts (s s' : MahjongEngine)
    (hw : s'.wall.tiles.length = s.wall.tiles.length)
    (hd : s'.wall.dead_wall.length = s.wall.dead_wall.length)
    (hp : (s'.players.map Player.tile_total).sum = (s.players.map Player.tile_total).sum) :
    s'.tile_total = s.tile_total := by
  unfold MahjongEngine.tile_total
  omega

theorem tile_total_execute_discard (s : MahjongEngine) (i : Nat) (ts : Option String) :
    (s.execute_discard i ts).1.tile_total = s.tile_total := by
  unfold MahjongEngine.execute_discard
  split
  · rfl
  · split
    · rfl
    · rename_i player hgp
      split
      · rfl
      · rename_i tile hf
        split
        · rfl
        · rename_i dt p1 hd
          obtain ⟨hi, hp⟩ := get_player_ok s i player hgp
          have hcon : player.hand.concealed_tiles.contains tile = true := by
            by_contra hc
            unfold Player.discard_tile at hd
            rw [if_pos (by simpa using hc)] at hd
            exact absurd hd (by simp)
          have hp1 : p1 = { player with hand := player.hand.discard_tile tile false } := by
            unfold Player.discard_tile at hd
            rw [if_neg (by rw [hcon]; simp)] at hd
            exact (Prod.mk.inj (Except.ok.inj hd)).2.symm
          have hp1t : p1.tile_total = (s.players.get ⟨i, hi⟩).tile_total := by
            rw [hp1, ← hp]
            exact tile_total_hand_discard player.hand tile false hcon
          dsimp only
          apply tile_total_eq_of_parts
          · rfl
          · rfl
          · dsimp only
            rw [sum_map_tile_total_map _ _ tile_total_check_furiten]
            have hset := sum_map_tile_total_set s.players i p1 hi
            dsimp only [MahjongEngine.set_player]
            omega

set_option maxHeartbeats 1000000 in
theorem tile_total_execute_tsumo (s : MahjongEngine) (i : Nat) :
    (s.execute_tsumo i).1.tile_total = s.tile_total := by
  unfold MahjongEngine.execute_tsumo
  split
  · rfl
  · rename_i player hgp
    split
    · rfl
    · split
      · rfl
      · rename_i wt hwt
        dsimp only
        split <;>
        · split
          · rfl
          · split
            · rfl
            · rename_i score payments hsc
              rw [tile_total_update_honba]
              exact tile_total_apply_tsumo_payments s i score payments

set_option maxHeartbeats 1000000 in
theorem tile_total_execute_ron (s : MahjongEngine) (i : Nat) :
    (s.execute_ron i).1.tile_total = s.tile_total := by
  unfold MahjongEngine.execute_ron
  split
  · rfl
  · rename_i player hgp
    dsimp only
    split
    · rename_i wt d hweq hdeq
      split
      · rfl
      · split <;>
        · split
          · rfl
          · split
            · rfl
            · rename_i score payx hsc
              split
              · rfl
              · rename_i discarder hgd
                rw [tile_total_update_honba]
                obtain ⟨hdlt, hdisc⟩ := get_player_ok s d discarder hgd
                have h1 : (s.set_player d (discarder.add_score (-(score : Int)))).tile_total
                    = s.tile_total := by
                  apply tile_total_set_player s d _ hdlt
                  rw [hdisc]
                  rfl
                have h2 := set_player_modify_tile_total
                  (s.set_player d (discarder.add_score (-(score : Int)))) i
                  (fun q => q.add_score ((score : Int))) (fun q => rfl)
                have h3 := set_player_modify_tile_total
                  ((s.set_player d (discarder.add_score (-(score : Int)))).set_player i
                    (((s.set_player d (discarder.add_score (-(score : Int)))).players.getD i
                      default_player).add_score ((score : Int)))) i
                  (fun q => q.add_score
                    ((((s.set_player d (discarder.add_score (-(score : Int)))).set_player i
                      (((s.set_player d (discarder.add_score (-(score : Int)))).players.getD i
                        default_player).add_score ((score : Int)))).riichi_bets : Int) * 1000))
                  (fun q => rfl)
                exact h3.trans (h2.trans h1)
    · rfl

theorem player_discard_tile_total (p : Player) (t : Tile) (b : Bool) (dt : Tile) (p1 : Player)
    (h : p.discard_tile t b = .ok (dt, p1)) : p1.tile_total = p.tile_total := by
  unfold Player.discard_tile at h
  split at h
  · exact absurd h (by simp)
  · rename_i hcon
    have hmk := (Prod.mk.inj (Except.ok.inj h)).2
    rw [← hmk]
    unfold Player.tile_total
    exact tile_total_hand_discard p.hand t b (by simpa using hcon)

theorem declare_riichi_tile_total (p : Player) (turn : Nat) (p1 : Player)
    (h : p.declare_riichi turn = .ok p1) : p1.tile_total = p.tile_total := by
  unfold Player.declare_riichi at h
  split at h
  · exact absurd h (by simp)
  · split at h
    · exact absurd h (by simp)
    · rename_i h1 hh
      rw [← Except.ok.inj h]
      unfold Player.tile_total
      dsimp only
      unfold Hand.declare_riichi at hh
      split at hh
      · exact absurd hh (by simp)
      · rw [← Except.ok.inj hh]
        rfl

theorem get_set_self (l : List Player) (i : Nat) (p : Player)
    (h : i < (l.set i p).length) :
    (l.set i p).get ⟨i, h⟩ = p := by
  rw [← getD_eq_get]
  exact getD_set_self l i p (by simpa using h)

theorem tile_total_execute_riichi (s : MahjongEngine) (i : Nat) (ts : Option String) :
    (s.execute_riichi i ts).1.tile_total = s.tile_total := by
  unfold MahjongEngine.execute_riichi
  split
  · rfl
  · split
    · rfl
    · rename_i player hgp
      split
      · rfl
      · split
        · rfl
        · rename_i tile hf
          split
          · rfl
          · rename_i p1 hdr
            obtain ⟨hi, hp⟩ := get_player_ok s i player hgp
            have hp1 : p1.tile_total = (s.players.get ⟨i, hi⟩).tile_total := by
              rw [declare_riichi_tile_total player _ p1 hdr, hp]
            have hs1 : (s.set_player i p1).tile_total = s.tile_total :=
              tile_total_set_player s i p1 hi hp1
            dsimp only
            split
            · exact hs1
            · rename_i dt p2 hd2
              have hp2 : p2.tile_total = p1.tile_total :=
                player_discard_tile_total p1 tile true dt p2 hd2
              have hi2 : i < ({ (s.set_player i p1) with
                  riichi_bets := (s.set_player i p1).riichi_bets + 1 }
                    : MahjongEngine).players.length := by
                simpa [MahjongEngine.set_player] using hi
              have hget : (({ (s.set_player i p1) with
                  riichi_bets := (s.set_player i p1).riichi_bets + 1 }
                    : MahjongEngine).players.get ⟨i, hi2⟩) = p1 :=
                get_set_self s.players i p1 hi2
              have h3 := tile_total_set_player
                ({ (s.set_player i p1) with
                  riichi_bets := (s.set_player i p1).riichi_bets + 1 } : MahjongEngine)
                i p2 hi2 (by rw [hget]; exact hp2)
              exact h3.trans hs1

theorem tile_total_execute_pass (s : MahjongEngine) (i : Nat) :
    (s.execute_pass i).1.tile_total = s.tile_total := by
  unfold MahjongEngine.execute_pass
  split
  · rfl
  · rename_i player hgp
    obtain ⟨hi, hp⟩ := get_player_ok s i player hgp
    have hsetf : (s.set_player i
        ({ player with hand := { player.hand with temp_furiten := true } } : Player)).tile_total
          = s.tile_total := by
      apply tile_total_set_player s i _ hi
      rw [← hp]
      rfl
    dsimp only
    repeat' split
    all_goals
      first
        | rfl
        | exact hsetf
        | (rw [tile_total_perform_added_kan]; first | rfl | exact hsetf)

theorem tile_total_dora_then_replacement (s2 : MahjongEngine) (i : Nat)
    (hi : i < s2.players.length) :
    ((({ s2 with wall := s2.wall.add_dora_indicator } : MahjongEngine)).kan_replacement_draw
      i).tile_total = s2.tile_total := by
  rw [tile_total_kan_replacement_draw _ i (by exact hi)]
  unfold MahjongEngine.tile_total Wall.add_dora_indicator
  dsimp only
  split <;> rfl

theorem tile_total_set_player_ge (s : MahjongEngine) (i : Nat) (p : Player)
    (hi : i < s.players.length) (hp : (s.players.get ⟨i, hi⟩).tile_total ≤ p.tile_total) :
    s.tile_total ≤ (s.set_player i p).tile_total := by
  unfold MahjongEngine.set_player MahjongEngine.tile_total
  dsimp only
  have hset := sum_map_tile_total_set s.players i p hi
  omega

theorem tile_total_execute_closed_or_added_kan (s : MahjongEngine) (i : Nat)
    (ts : Option String) :
    (s.execute_closed_or_added_kan i ts).1.tile_total = s.tile_total := by
  unfold MahjongEngine.execute_closed_or_added_kan
  split
  · rfl
  · split
    · rfl
    · split
      · rfl
      · rename_i player hgp
        split
        · rfl
        · rename_i target hf
          obtain ⟨hi, hp⟩ := get_player_ok s i player hgp
          split
          · split
            · rfl
            · dsimp only
              split
              · exact tile_total_clear_ippatsu_all s
              · rw [tile_total_perform_added_kan]
                exact tile_total_clear_ippatsu_all s
          · split
            · rename_i hcount
              split
              · rfl
              · dsimp only
                have hi1 : i < ((s.set_player i
                    (player.call_kan target none)).clear_ippatsu_all).players.length := by
                  simpa [MahjongEngine.clear_ippatsu_all, MahjongEngine.set_player] using hi
                rw [tile_total_dora_then_replacement _ i hi1]
                rw [tile_total_clear_ippatsu_all]
                apply tile_total_set_player s i _ hi
                rw [tile_total_call_kan_closed player target hcount, hp]
            · rfl

theorem tile_total_execute_pon_cases (s : MahjongEngine) (i : Nat) :
    (s.execute_pon i).1 = s ∨
      (∃ s1 r, s.execute_pon i = (s1, .ok r) ∧ r.success = true ∧
        s.tile_total ≤ s1.tile_total) := by
  unfold MahjongEngine.execute_pon
  split
  · exact Or.inl rfl
  · rename_i player hgp
    split
    · exact Or.inl rfl
    · rename_i ld hld
      split
      · exact Or.inl rfl
      · obtain ⟨hi, hp⟩ := get_player_ok s i player hgp
        refine Or.inr ⟨_, _, rfl, rfl, ?_⟩
        show s.tile_total ≤
          ((s.set_player i (player.call_pon ld s.last_discard_player)).clear_ippatsu_all).tile_total
        rw [tile_total_clear_ippatsu_all]
        apply tile_total_set_player_ge s i _ hi
        rw [← hp]
        have := tile_total_call_pon_ge player ld s.last_discard_player
        omega

theorem tile_total_execute_chii_cases (s : MahjongEngine) (i : Nat) (seq : List String) :
    (s.execute_chii i seq).1 = s ∨
      (∃ s1 r, s.execute_chii i seq = (s1, .ok r) ∧ r.success = true ∧
        s.tile_total ≤ s1.tile_total) := by
  unfold MahjongEngine.execute_chii
  split
  · exact Or.inl rfl
  · rename_i player hgp
    split
    · exact Or.inl rfl
    · rename_i ld hld
      split
      · exact Or.inl rfl
      · rename_i ldp hldp
        split
        · exact Or.inl rfl
        · dsimp only
          split
          · exact Or.inl rfl
          · rename_i hseqlen
            split
            · exact Or.inl rfl
            · obtain ⟨hi, hp⟩ := get_player_ok s i player hgp
              refine Or.inr ⟨_, _, rfl, rfl, ?_⟩
              show s.tile_total ≤
                ((s.set_player i (player.call_chii ld (sort_by_value
                  ((seq.foldl (fun acc ts =>
                    match List.find? (fun t => t.str == ts) player.hand.concealed_tiles with
                    | some t => acc ++ [t]
                    | none => acc) []) ++ [ld])))).clear_ippatsu_all).tile_total
              rw [tile_total_clear_ippatsu_all]
              apply tile_total_set_player_ge s i _ hi
              rw [← hp]
              apply tile_total_call_chii_ge
              rw [length_sort_by_value]
              simp only [bne_iff_ne, ne_eq, not_not] at hseqlen
              simp [hseqlen]

theorem tile_total_call_kan_ge (p : Player) (t : Tile) (o : Option Nat) :
    p.tile_total ≤ (p.call_kan t o).tile_total := by
  unfold Player.call_kan Player.tile_total
  have h1 := tile_total_remove_tile_ge p.hand t
  have h2 := tile_total_remove_tile_ge (p.hand.remove_tile t).2 t
  have h3 := tile_total_remove_tile_ge ((p.hand.remove_tile t).2.remove_tile t).2 t
  have h4 := tile_total_remove_tile_ge
    (((p.hand.remove_tile t).2.remove_tile t).2.remove_tile t).2 t
  rcases o with _ | d <;> dsimp only <;> rw [tile_total_add_meld] <;>
    simp only [List.length_cons, List.length_nil] <;> omega

theorem tile_total_execute_kan_cases (s : MahjongEngine) (i : Nat) :
    (s.execute_kan i).1 = s ∨
      (∃ s1 r, s.execute_kan i = (s1, .ok r) ∧ r.success = true ∧
        s.tile_total ≤ s1.tile_total) := by
  unfold MahjongEngine.execute_kan
  split
  · exact Or.inl rfl
  · rename_i player hgp
    split
    · rename_i ld hld
      split
      · exact Or.inl rfl
      · obtain ⟨hi, hp⟩ := get_player_ok s i player hgp
        refine Or.inr ⟨_, _, rfl, rfl, ?_⟩
        dsimp only
        have hi1 : i < (((s.set_player i
            (player.call_kan ld s.last_discard_player)).clear_ippatsu_all)).players.length := by
          simpa [MahjongEngine.clear_ippatsu_all, MahjongEngine.set_player] using hi
        have hkey := tile_total_dora_then_replacement
          ({ ((s.set_player i (player.call_kan ld s.last_discard_player)).clear_ippatsu_all)
              with has_open_call := true, current_player := i, last_discard := none }
            : MahjongEngine) i (by simpa using hi1)
        rw [hkey]
        show s.tile_total ≤
          ((s.set_player i (player.call_kan ld s.last_discard_player)).clear_ippatsu_all).tile_total
        rw [tile_total_clear_ippatsu_all]
        apply tile_total_set_player_ge s i _ hi
        rw [← hp]
        exact tile_total_call_kan_ge player ld s.last_discard_player
    · exact Or.inl rfl

theorem tile_total_body_cases (s : MahjongEngine) (i : Nat) (action : String)
    (kwargs : Params) :
    (s.execute_action_body i action kwargs).1.tile_total = s.tile_total ∨
      (s.claim_step i action kwargs ∧
        s.tile_total ≤ (s.execute_action_body i action kwargs).1.tile_total) := by
  by_cases h1 : (action == "discard") = true
  · have hb : s.execute_action_body i action kwargs = s.execute_discard i kwargs.tile := by
      unfold MahjongEngine.execute_action_body
      rw [if_pos h1]
    rw [hb]
    exact Or.inl (tile_total_execute_discard s i kwargs.tile)
  by_cases h2 : (action == "tsumo") = true
  · have hb : s.execute_action_body i action kwargs = s.execute_tsumo i := by
      unfold MahjongEngine.execute_action_body
      rw [if_neg h1, if_pos h2]
    rw [hb]
    exact Or.inl (tile_total_execute_tsumo s i)
  by_cases h3 : (action == "ron") = true
  · have hb : s.execute_action_body i action kwargs = s.execute_ron i := by
      unfold MahjongEngine.execute_action_body
      rw [if_neg h1, if_neg h2, if_pos h3]
    rw [hb]
    exact Or.inl (tile_total_execute_ron s i)
  by_cases h4 : (action == "riichi") = true
  · have hb : s.execute_action_body i action kwargs = s.execute_riichi i kwargs.tile := by
      unfold MahjongEngine.execute_action_body
      rw [if_neg h1, if_neg h2, if_neg h3, if_pos h4]
    rw [hb]
    exact Or.inl (tile_total_execute_riichi s i kwargs.tile)
  by_cases h5 : (action == "chii") = true
  · have hb : s.execute_action_body i action kwargs = s.execute_chii i kwargs.sequence := by
      unfold MahjongEngine.execute_action_body
      rw [if_neg h1, if_neg h2, if_neg h3, if_neg h4, if_pos h5]
    rcases tile_total_execute_chii_cases s i kwargs.sequence with hc | ⟨s1, r, heq, hsucc, hle⟩
    · exact Or.inl (by rw [hb, hc])
    · refine Or.inr ⟨⟨Or.inr (Or.inl (beq_iff_eq.mp h5)), s1, r, hb.trans heq, hsucc⟩, ?_⟩
      rw [hb, heq]
      exact hle
  by_cases h6 : (action == "pon") = true
  · have hb : s.execute_action_body i action kwargs = s.execute_pon i := by
      unfold MahjongEngine.execute_action_body
      rw [if_neg h1, if_neg h2, if_neg h3, if_neg h4, if_neg h5, if_pos h6]
    rcases tile_total_execute_pon_cases s i with hc | ⟨s1, r, heq, hsucc, hle⟩
    · exact Or.inl (by rw [hb, hc])
    · refine Or.inr ⟨⟨Or.inl (beq_iff_eq.mp h6), s1, r, hb.trans heq, hsucc⟩, ?_⟩
      rw [hb, heq]
      exact hle
  by_cases h7 : (action == "kan") = true
  · by_cases h8 : s.last_discard.isSome = true
    · have hb : s.execute_action_body i action kwargs = s.execute_kan i := by
        unfold MahjongEngine.execute_action_body
        rw [if_neg h1, if_neg h2, if_neg h3, if_neg h4, if_neg h5, if_neg h6, if_pos h7,
          if_pos h8]
      rcases tile_total_execute_kan_cases s i with hc | ⟨s1, r, heq, hsucc, hle⟩
      · exact Or.inl (by rw [hb, hc])
      · refine Or.inr ⟨⟨Or.inr (Or.inr ⟨beq_iff_eq.mp h7, h8⟩), s1, r, hb.trans heq,
          hsucc⟩, ?_⟩
        rw [hb, heq]
        exact hle
    · have hb : s.execute_action_body i action kwargs
          = s.execute_closed_or_added_kan i kwargs.tile := by
        unfold MahjongEngine.execute_action_body
        rw [if_neg h1, if_neg h2, if_neg h3, if_neg h4, if_neg h5, if_neg h6, if_pos h7,
          if_neg h8]
      rw [hb]
      exact Or.inl (tile_total_execute_closed_or_added_kan s i kwargs.tile)
  by_cases h9 : (action == "pass") = true
  · have hb : s.execute_action_body i action kwargs = s.execute_pass i := by
      unfold MahjongEngine.execute_action_body
      rw [if_neg h1, if_neg h2, if_neg h3, if_neg h4, if_neg h5, if_neg h6, if_neg h7,
        if_pos h9]
    rw [hb]
    exact Or.inl (tile_total_execute_pass s i)
  · have hb : s.execute_action_body i action kwargs
        = (s, .ok { success := false, message := "Unknown action: " ++ action }) := by
      unfold MahjongEngine.execute_action_body
      rw [if_neg h1, if_neg h2, if_neg h3, if_neg h4, if_neg h5, if_neg h6, if_neg h7,
        if_neg h9]
    rw [hb]
    exact Or.inl rfl

theorem tile_total_execute_action_eq_body (s : MahjongEngine) (i : Nat) (action : String)
    (kwargs : Params) :
    (s.execute_action i action kwargs).1.tile_total
      = (s.execute_action_body i action kwargs).1.tile_total := by
  unfold MahjongEngine.execute_action
  split
  · rename_i s1 r hb
    split
    · rw [hb]
      exact tile_total_handle_draw s1
    · rw [hb]
  · rename_i s1 e hb
    rw [hb]

theorem tile_total_execute_action_cases (s : MahjongEngine) (i : Nat) (action : String)
    (kwargs : Params) :
    (s.execute_action i action kwargs).1.tile_total = s.tile_total ∨
      (s.claim_step i action kwargs ∧
        s.tile_total ≤ (s.execute_action i action kwargs).1.tile_total) := by
  rw [tile_total_execute_action_eq_body]
  exact tile_total_body_cases s i action kwargs

set_option maxRecDepth 10000 in
theorem build_wall_length (b : Bool) : (Wall.build_wall b).length = 136 := by
  cases b <;> decide

theorem foldlM_tile_total {α : Type} (P : MahjongEngine → Prop) (l : List α)
    (f : MahjongEngine → α → Except String MahjongEngine)
    (hf : ∀ st a st', a ∈ l → P st → f st a = .ok st' →
      st'.tile_total = st.tile_total ∧ P st') :
    ∀ st st', P st → l.foldlM f st = .ok st' →
      st'.tile_total = st.tile_total ∧ P st' := by
  induction l with
  | nil =>
    intro st st' hP h
    simp only [List.foldlM_nil] at h
    obtain rfl := Except.ok.inj h
    exact ⟨rfl, hP⟩
  | cons a as ih =>
    intro st st' hP h
    rw [List.foldlM_cons] at h
    rcases hfa : f st a with e | st1
    · rw [hfa] at h
      exact Except.noConfusion h
    · rw [hfa] at h
      have hbind : (Except.ok st1 >>= fun s1 => as.foldlM f s1) = as.foldlM f st1 := rfl
      rw [hbind] at h
      obtain ⟨he, hP1⟩ := hf st a st1 (by simp) hP hfa
      obtain ⟨he2, hP2⟩ := ih (fun st a st' ha => hf st a st' (by simp [ha])) st1 st' hP1 h
      exact ⟨he2.trans he, hP2⟩

theorem except_ok_bind {α β : Type} (a : α) (f : α → Except String β) :
    (Except.ok a >>= f) = f a := rfl

theorem deal_step_ok (st : MahjongEngine) (i : Nat) (res : MahjongEngine)
    (hi : i < st.players.length)
    (h : (do
        let (t, w) ← st.wall.draw_tile
        pure (({ st with wall := w }).set_player i
          ((st.players.getD i default_player).draw_tile t))
          : Except String MahjongEngine) = Except.ok res) :
    res.tile_total = st.tile_total ∧ res.players.length = st.players.length ∧
      res.dealer = st.dealer := by
  rcases ht : st.wall.tiles with _ | ⟨t, rest⟩
  · unfold Wall.draw_tile at h
    rw [ht] at h
    exact Except.noConfusion h
  · unfold Wall.draw_tile at h
    rw [ht] at h
    have hres : res = ({ st with wall := { st.wall with tiles := rest } }).set_player i
        ((st.players.getD i default_player).draw_tile t) := (Except.ok.inj h).symm
    subst hres
    refine ⟨set_player_draw_tile_total st i t rest hi ht, ?_, rfl⟩
    simp [MahjongEngine.set_player]

theorem deal_initial_tile_total (s s' : MahjongEngine)
    (hd : s.dealer < s.players.length)
    (h : s.deal_initial_hands = .ok s') :
    s'.tile_total = s.tile_total := by
  unfold MahjongEngine.deal_initial_hands at h
  rcases houter : (List.range 13).foldlM (fun st _ =>
      (List.range st.players.length).foldlM (fun st2 i => do
        let (t, w) ← st2.wall.draw_tile
        pure (({ st2 with wall := w }).set_player i
          ((st2.players.getD i default_player).draw_tile t))) st) s with e | s1
  · rw [houter] at h
    exact Except.noConfusion h
  · rw [houter] at h
    have hout := foldlM_tile_total
      (fun st => st.players.length = s.players.length ∧ st.dealer = s.dealer)
      (List.range 13) _
      (fun st a st' ha hP hfa => by
        have hin := foldlM_tile_total
          (fun st2 => st2.players.length = s.players.length ∧ st2.dealer = s.dealer)
          (List.range st.players.length) _
          (fun st2 b st2' hb hP2 hfb => by
            have hblt : b < st2.players.length := by
              have := List.mem_range.mp hb
              omega
            obtain ⟨he, hl, hdl⟩ := deal_step_ok st2 b st2' hblt hfb
            exact ⟨he, by omega, by rw [hdl]; exact hP2.2⟩)
          st st' hP hfa
        exact hin)
      s s1 ⟨rfl, rfl⟩ houter
    have hs1tot := hout.1
    have hs1len := hout.2.1
    have hs1d := hout.2.2
    rw [except_ok_bind] at h
    dsimp only at h
    unfold Wall.draw_tile at h
    rcases ht : s1.wall.tiles with _ | ⟨t, rest⟩
    · rw [ht] at h
      exact Except.noConfusion h
    · rw [ht] at h
      have hres : s' = { (({ s1 with wall := { s1.wall with tiles := rest } }).set_player
          s1.dealer ((s1.players.getD s1.dealer default_player).draw_tile t)) with
            phase := GamePhase.playing } := (Except.ok.inj h).symm
      subst hres
      have hdlt : s1.dealer < s1.players.length := by omega
      have := set_player_draw_tile_total s1 s1.dealer t rest hdlt ht
      exact this.trans hs1tot

theorem sum_tile_total_fresh_players (names : List String) (winds : List Wind) :
    (((List.range names.length).map (fun i =>
      ({ name := names.getD i "", seat_wind := winds.getD i Wind.east,
         is_dealer := i == 0 } : Player))).map Player.tile_total).sum = 0 := by
  apply List.sum_eq_zero
  intro x hx
  simp only [List.map_map, List.mem_map] at hx
  obtain ⟨i, _, rfl⟩ := hx
  rfl

theorem init_tile_total (names : List String) (shuffled : List Tile) (red : Bool)
    (s : MahjongEngine)
    (hperm : shuffled.Perm (Wall.build_wall red))
    (hok : MahjongEngine.init_engine names shuffled red = .ok s) :
    s.tile_total = 136 := by
  unfold MahjongEngine.init_engine at hok
  split at hok
  · exact absurd hok (by simp)
  · rename_i hn4
    have hlen : names.length = 4 := by simpa using hn4
    have hshuf : shuffled.length = 136 := by
      rw [hperm.length_eq, build_wall_length]
    have hok2 : ({ players := (List.range names.length).map (fun i => ({ name := names.getD i "", seat_wind := [Wind.east, Wind.south, Wind.west, Wind.north].getD i Wind.east, is_dealer := i == 0 } : Player)), wall := Wall.fresh shuffled red } : MahjongEngine).deal_initial_hands = .ok s := hok
    have hdeal := deal_initial_tile_total _ s (by simp [hlen]) hok2
    rw [hdeal]
    unfold MahjongEngine.tile_total Wall.fresh
    dsimp only
    rw [sum_tile_total_fresh_players]
    simp only [List.length_take, List.length_drop, hshuf]
    omega

theorem reachable_tile_total_ge (s : MahjongEngine) (h : MahjongEngine.Reachable s) :
    136 ≤ s.tile_total := by
  induction h with
  | init names shuffled red s hperm hok =>
    have := init_tile_total names shuffled red s hperm hok
    omega
  | step s i a k hr ih =>
    rcases tile_total_execute_action_cases s i a k with he | ⟨_, hle⟩
    · rw [he]
      exact ih
    · exact ih.trans hle

theorem reachable_noclaim_tile_total (s : MahjongEngine)
    (h : MahjongEngine.ReachableNoClaim s) : s.tile_total = 136 := by
  induction h with
  | init names shuffled red s hperm hok =>
    exact init_tile_total names shuffled red s hperm hok
  | step s i a k hr hnc ih =>
    rcases tile_total_execute_action_cases s i a k with he | ⟨hcs, _⟩
    · rw [he]
      exact ih
    · exact absurd hcs hnc

/-- C2 amended: along every trace of execute_action calls from a fresh engine
the conserved quantity wall + dead wall + hands + discards never drops below
136, and it stays exactly 136 on every trace free of successful discard
claims; a successful pon, chii or open kan adds the claimed tile to the meld
while leaving it in the discarder's pile, so the total can exceed 136. -/
theorem conservation_amended :
    (∀ s : MahjongEngine, MahjongEngine.Reachable s → 136 ≤ s.tile_total) ∧
    (∀ s : MahjongEngine, MahjongEngine.ReachableNoClaim s → s.tile_total = 136) :=
  ⟨reachable_tile_total_ge, reachable_noclaim_tile_total⟩

set_option maxRecDepth 40000 in
/-- C2 counterexample: after a real deal from a full shuffled wall, one
discard and one pon, the reachable state counts 137 tiles — the east seat's
north stays in its discard pile while three norths sit in seat one's meld. -/
theorem conservation_violated_cex :
    MahjongEngine.Reachable conservation_cex_state ∧
      conservation_cex_state.tile_total = 137 := by
  constructor
  · have h0 : MahjongEngine.Reachable conservation_state0 :=
      MahjongEngine.Reachable.init ["A", "B", "C", "D"] conservation_wall false
        conservation_state0 (by decide) (by rfl)
    exact MahjongEngine.Reachable.step _ 1 ("pon") {}
      (MahjongEngine.Reachable.step _ 0 ("discard")
        { tile := some (wind_tile Wind.north).str } h0)
  · decide

set_option maxRecDepth 40000 in
/-- Witness for the C2 amended theorem: the freshly dealt conservation engine
is reachable without claims and counts exactly 136 tiles. -/
theorem conservation_amended_witness :
    MahjongEngine.ReachableNoClaim conservation_state0 ∧
      136 ≤ conservation_state0.tile_total ∧ conservation_state0.tile_total = 136 := by
  have h0 : MahjongEngine.ReachableNoClaim conservation_state0 :=
    MahjongEngine.ReachableNoClaim.init ["A", "B", "C", "D"] conservation_wall false
      conservation_state0 (by decide) (by rfl)
  have h1 : MahjongEngine.Reachable conservation_state0 :=
    MahjongEngine.Reachable.init ["A", "B", "C", "D"] conservation_wall false
      conservation_state0 (by decide) (by rfl)
  exact ⟨h0, conservation_amended.1 conservation_state0 h1,
    conservation_amended.2 conservation_state0 h0⟩

theorem chankan_mem_check_all_yaku (h : Hand) (wt : Tile) (ts : Bool) (sw rw : Wind)
    (dt : List Tile) (ud : Option (List Tile)) (ctx : YakuContext)
    (hc : ctx.is_chankan = true) :
    ({ name := "Chankan", han := 1 } : Yaku) ∈
      YakuChecker.check_all_yaku h wt ts sw rw dt ud ctx := by
  unfold YakuChecker.check_all_yaku
  dsimp only
  simp only [List.mem_append]
  refine Or.inl (Or.inl (Or.inl (Or.inl (Or.inl (Or.inr ?_)))))
  rw [hc]
  simp [opt_yaku]

theorem calculate_score_ron_ok (yaku_list : List Yaku) (d : Bool) (h : Option Hand)
    (wt : Option Tile) (sw rw : Option Wind) (fu : Option Nat) (honba : Nat)
    (hy : ∃ y ∈ yaku_list, 1 ≤ y.han) :
    ∃ sc pays, Scoring.calculate_score yaku_list d false h wt sw rw fu honba
      = .ok (sc, pays) := by
  unfold Scoring.calculate_score
  have hsum : (yaku_list.map Yaku.han).sum ≠ 0 := by
    obtain ⟨y, hmem, hhan⟩ := hy
    have := List.single_le_sum (fun (x : Nat) _ => Nat.zero_le x) _
      (List.mem_map_of_mem Yaku.han hmem)
    omega
  rw [if_neg (by simpa using hsum)]
  exact ⟨_, _, rfl⟩

theorem closed_or_added_kan_pending (s : MahjongEngine) (i : Nat) (target : Tile)
    (ts : String)
    (hi : i < s.players.length)
    (hcur : s.current_player = i)
    (hts : ts ≠ "")
    (hfind : (s.players.getD i default_player).hand.concealed_tiles.find?
      (fun t => some t.str == some ts) = some target)
    (hupg : (s.players.getD i default_player).can_upgrade_pon_to_kan target = true)
    (hriichi : s.riichi_kan_allowed (s.players.getD i default_player) target = true)
    (hresp : s.clear_ippatsu_all.find_chankan_responders target i ≠ []) :
    s.execute_closed_or_added_kan i (some ts) =
      ({ s.clear_ippatsu_all with
          pending_chankan_tile := some target,
          pending_chankan_from := some i,
          pending_chankan_responders :=
            s.clear_ippatsu_all.find_chankan_responders target i },
        .ok { success := true, message := "Added kan pending chankan responses",
              pending_chankan := true,
              responders := s.clear_ippatsu_all.find_chankan_responders target i }) := by
  rw [getD_eq_get s.players i hi] at hfind hupg hriichi
  unfold MahjongEngine.execute_closed_or_added_kan MahjongEngine.get_player
  rw [hcur]
  simp only [bne_self_eq_false, Bool.false_eq_true, if_false]
  rw [show ((some ts == (none : Option String)) || (some ts == some "")) = (ts == "")
    from rfl]
  rw [beq_eq_false_iff_ne.mpr hts]
  simp only [Bool.false_eq_true, if_false]
  rw [dif_pos hi]
  dsimp only
  rw [hfind]
  dsimp only
  rw [hupg]
  simp only [eq_self_iff_true, if_true]
  rw [hriichi]
  simp only [Bool.not_true, Bool.false_eq_true, if_false]
  rw [show (s.clear_ippatsu_all.find_chankan_responders target i != []) = true
    from bne_iff_ne.mpr hresp]
  simp only [eq_self_iff_true, if_true]

set_option maxHeartbeats 1000000 in
theorem execute_ron_chankan (s2 : MahjongEngine) (j : Nat) (target : Tile) (i : Nat)
    (hpt : s2.pending_chankan_tile = some target)
    (hpf : s2.pending_chankan_from = some i)
    (hjm : j ∈ s2.pending_chankan_responders)
    (hj : j < s2.players.length)
    (hi2 : i < s2.players.length)
    (hcan : (s2.players.get ⟨j, hj⟩).can_call_ron target = true) :
    ∃ s3 r, s2.execute_ron j = (s3, .ok r) ∧ r.success = true ∧
      r.game_ended = true ∧ ("Chankan", 1) ∈ r.yaku := by
  have hcc : (s2.pending_chankan_tile.isSome && s2.pending_chankan_responders.contains j)
      = true := by
    simp only [hpt, Option.isSome_some, Bool.true_and]
    exact List.elem_iff.mpr hjm
  unfold MahjongEngine.execute_ron MahjongEngine.get_player
  rw [dif_pos hj]
  dsimp only
  rw [hcc]
  simp only [eq_self_iff_true, if_true]
  rw [hpt, hpf]
  dsimp only
  rw [hcan]
  simp only [Bool.not_true, Bool.false_eq_true, if_false]
  have hmem := chankan_mem_check_all_yaku (s2.players.get ⟨j, hj⟩).hand target false
    (s2.players.get ⟨j, hj⟩).seat_wind s2.round_wind s2.wall.get_dora_tiles
    (if (s2.players.get ⟨j, hj⟩).hand.is_riichi then some s2.wall.get_ura_dora_tiles
      else none)
    (s2.build_yaku_context j false true) rfl
  have hany : ((YakuChecker.check_all_yaku (s2.players.get ⟨j, hj⟩).hand target false
      (s2.players.get ⟨j, hj⟩).seat_wind s2.round_wind s2.wall.get_dora_tiles
      (if (s2.players.get ⟨j, hj⟩).hand.is_riichi then some s2.wall.get_ura_dora_tiles
        else none)
      (s2.build_yaku_context j false true)).any (fun y => y.name != "Dora")) = true := by
    rw [List.any_eq_true]
    exact ⟨_, hmem, rfl⟩
  rw [hany]
  simp only [Bool.not_true, Bool.false_eq_true, if_false]
  obtain ⟨sc, pays, hsc⟩ := calculate_score_ron_ok _ (s2.players.get ⟨j, hj⟩).is_dealer
    (some (s2.players.get ⟨j, hj⟩).hand) (some target)
    (some (s2.players.get ⟨j, hj⟩).seat_wind) (some s2.round_wind) none s2.honba
    ⟨_, hmem, Nat.le_refl 1⟩
  rw [hsc]
  rw [dif_pos hi2]
  refine ⟨_, _, rfl, ?_, ?_, ?_⟩
  · rfl
  · rfl
  · apply List.mem_map.mpr
    exact ⟨_, hmem, rfl⟩

/-- C1: in any state on the kan caller's turn with no pending discard — an
upgradeable pon of the named tile, the riichi restriction passing, a live
wall, and an opponent in the chankan responder set — execute_action("kan")
succeeds with pending_chankan true, and that opponent's following
execute_action("ron") succeeds, ends the round, and carries the Chankan yaku.
The upgrade methods are modelled from the spec because src/game/player.py
does not ship them. -/
theorem chankan_added_kan_flow :
    ∀ (s : MahjongEngine) (i j : Nat) (target : Tile) (ts : String),
      s.last_discard = none →
      i < s.players.length →
      s.current_player = i →
      ts ≠ "" →
      (s.players.getD i default_player).hand.concealed_tiles.find?
        (fun t => some t.str == some ts) = some target →
      (s.players.getD i default_player).can_upgrade_pon_to_kan target = true →
      s.riichi_kan_allowed (s.players.getD i default_player) target = true →
      j ∈ s.clear_ippatsu_all.find_chankan_responders target i →
      s.wall.tiles ≠ [] →
      (s.execute_action i ("kan") { tile := some ts }).2.success = true ∧
      (s.execute_action i ("kan") { tile := some ts }).2.pending_chankan = true ∧
      ((s.execute_action i ("kan") { tile := some ts }).1.execute_action j
        ("ron") {}).2.success = true ∧
      ((s.execute_action i ("kan") { tile := some ts }).1.execute_action j
        ("ron") {}).2.game_ended = true ∧
      ("Chankan", 1) ∈ ((s.execute_action i ("kan") { tile := some ts }).1.execute_action
        j ("ron") {}).2.yaku := by
  intro s i j target ts hld hi hcur hts hfind hupg hriichi hjresp hwall
  have hresp : s.clear_ippatsu_all.find_chankan_responders target i ≠ [] :=
    List.ne_nil_of_mem hjresp
  have hkan := closed_or_added_kan_pending s i target ts hi hcur hts hfind hupg
    hriichi hresp
  have hb1 : s.execute_action_body i ("kan") { tile := some ts }
      = s.execute_closed_or_added_kan i (some ts) := by
    unfold MahjongEngine.execute_action_body
    rw [hld]
    rfl
  have hw0 : (s.wall.tiles.length == 0) = false := by
    rw [beq_eq_false_iff_ne]
    intro hc
    exact hwall (List.eq_nil_of_length_eq_zero hc)
  have hstep1 : s.execute_action i ("kan") { tile := some ts } =
      ({ s.clear_ippatsu_all with pending_chankan_tile := some target, pending_chankan_from := some i, pending_chankan_responders := s.clear_ippatsu_all.find_chankan_responders target i }, { success := true, message := "Added kan pending chankan responses", pending_chankan := true, responders := s.clear_ippatsu_all.find_chankan_responders target i }) := by
    unfold MahjongEngine.execute_action
    rw [hb1, hkan]
    dsimp only
    rw [show ((({ s.clear_ippatsu_all with pending_chankan_tile := some target, pending_chankan_from := some i, pending_chankan_responders := s.clear_ippatsu_all.find_chankan_responders target i } : MahjongEngine)).wall.tiles_remaining == 0) = false from hw0]
    simp only [Bool.false_and, Bool.false_eq_true, if_false]
  have hjlt : j < s.clear_ippatsu_all.players.length :=
    List.mem_range.mp (List.mem_filter.mp hjresp).1
  have hpred := (List.mem_filter.mp hjresp).2
  rw [Bool.and_eq_true, Bool.and_eq_true] at hpred
  have hcanj : ((s.clear_ippatsu_all).players.get ⟨j, hjlt⟩).can_call_ron target
      = true := by
    have := hpred.1.2
    rw [getD_eq_get _ _ hjlt] at this
    exact this
  obtain ⟨s3, r2, hstep2, hr2s, hr2g, hr2y⟩ := execute_ron_chankan
    ({ s.clear_ippatsu_all with pending_chankan_tile := some target, pending_chankan_from := some i, pending_chankan_responders := s.clear_ippatsu_all.find_chankan_responders target i })
    j target i rfl rfl hjresp hjlt
    (by simpa [MahjongEngine.clear_ippatsu_all] using hi) hcanj
  have hb2 : (({ s.clear_ippatsu_all with pending_chankan_tile := some target, pending_chankan_from := some i, pending_chankan_responders := s.clear_ippatsu_all.find_chankan_responders target i } : MahjongEngine)).execute_action_body j ("ron") {} = (({ s.clear_ippatsu_all with pending_chankan_tile := some target, pending_chankan_from := some i, pending_chankan_responders := s.clear_ippatsu_all.find_chankan_responders target i } : MahjongEngine)).execute_ron j := rfl
  have hstep2' : (({ s.clear_ippatsu_all with pending_chankan_tile := some target, pending_chankan_from := some i, pending_chankan_responders := s.clear_ippatsu_all.find_chankan_responders target i } : MahjongEngine)).execute_action j ("ron") {} = (s3, r2) := by
    unfold MahjongEngine.execute_action
    rw [hb2, hstep2]
    dsimp only
    rw [hr2g]
    simp only [Bool.not_true, Bool.and_false, Bool.false_eq_true, if_false]
  rw [hstep1]
  dsimp only
  rw [hstep2']
  exact ⟨rfl, rfl, hr2s, hr2g, hr2y⟩

/-- Witness for C1 at the concrete chankan scenario: seat zero upgrades its
3man pon to a kan and seat one robs it for the win. -/
theorem chankan_added_kan_flow_witness :
    (chankan_state.execute_action 0 ("kan") { tile := some (man_tile 3).str }).2.success
        = true ∧
    (chankan_state.execute_action 0 ("kan")
      { tile := some (man_tile 3).str }).2.pending_chankan = true ∧
    ((chankan_state.execute_action 0 ("kan") { tile := some (man_tile 3).str }).1.execute_action
      1 ("ron") {}).2.success = true ∧
    ((chankan_state.execute_action 0 ("kan") { tile := some (man_tile 3).str }).1.execute_action
      1 ("ron") {}).2.game_ended = true ∧
    ("Chankan", 1) ∈ ((chankan_state.execute_action 0 ("kan")
      { tile := some (man_tile 3).str }).1.execute_action 1 ("ron") {}).2.yaku :=
  chankan_added_kan_flow chankan_state 0 1 (man_tile 3) ((man_tile 3).str)
    rfl (by decide) rfl (by decide) (by decide) (by decide) (by decide) (by decide)
    (by decide)
